import Mathlib

/-!
Verification of the recurring-order scheduling and lifecycle engine of a
delivery-order backend, together with its sliding-window rate limiter and
its analytics dispatch ledger.

The definitions below are a shallow embedding of the TypeScript sources:

* `src/lib/rate-limiter.ts` (`checkRateLimit` and its per-key store),
* `src/lib/event-dispatch.ts` (`hasDispatched`, `markDispatched`),
* the order-status `PATCH` route handler (lifecycle state machine plus the
  analytics dispatch trigger),
* `server.ts` (`has30DaysPassed`, `getDayOfWeek`,
  `createAutoOrdersForClient`, `updateClientLastCheck`,
  `runAutoOrderScheduler`).

Times are modelled as integer milliseconds since the Unix epoch, and the
JavaScript `Date` day arithmetic (`setDate(getDate() + 1)`) is modelled as
adding 86,400,000 ms (a UTC model without daylight-saving jumps).
Fallible database operations are modelled with explicit success oracles.
-/

namespace DeliveryEngine

/-! ## Rate limiter (`src/lib/rate-limiter.ts`) -/

/-- Per-key record of the in-memory rate-limit store: a stale `count`
mirror, the bookkeeping `resetTime` fixed at record creation, and the list
of request timestamps retained for the sliding window. -/
structure RateLimitRecord where
  count : Nat
  resetTime : Int
  requestTimestamps : List Int
  deriving Repr, DecidableEq

/-- Configuration of one rate-limit class: `maxRequests` per `windowMs`. -/
structure RateLimitConfig where
  maxRequests : Nat
  windowMs : Int
  deriving Repr, DecidableEq

/-- Result triple returned by `checkRateLimit`. -/
structure RateLimitResult where
  allowed : Bool
  remaining : Nat
  resetTime : Int
  deriving Repr, DecidableEq

/-- Record used by a `checkRateLimit` call: the stored one, except that a
missing record is lazily created and a record whose bookkeeping
`resetTime` has passed is replaced by a fresh one (this is the
initialize-or-reset branch at the top of the source function). -/
def effectiveRecord (stored : Option RateLimitRecord) (now : Int)
    (config : RateLimitConfig) : RateLimitRecord :=
  match stored with
  | none => { count := 0, resetTime := now + config.windowMs, requestTimestamps := [] }
  | some r =>
    if r.resetTime < now then
      { count := 0, resetTime := now + config.windowMs, requestTimestamps := [] }
    else r

/-- Embedding of `checkRateLimit` for one key: the store entry for the key
(`none` when absent), the current clock value, and the configuration go
in; the result triple and the record written back to the store come out.
Mirrors the source: lazily create (or reset, once the bookkeeping
`resetTime` has passed) the record, drop timestamps at or before
`now - windowMs`, deny when the surviving count reaches `maxRequests`
(reporting the oldest surviving timestamp plus the window), otherwise
append `now` and allow. -/
def checkRateLimit (stored : Option RateLimitRecord) (now : Int)
    (config : RateLimitConfig) : RateLimitResult × RateLimitRecord :=
  let record : RateLimitRecord := effectiveRecord stored now config
  let windowStart : Int := now - config.windowMs
  let surviving : List Int := record.requestTimestamps.filter (fun t => windowStart < t)
  if config.maxRequests ≤ surviving.length then
    ({ allowed := false, remaining := 0,
       resetTime := surviving.headD 0 + config.windowMs },
     { record with requestTimestamps := surviving })
  else
    let updated : List Int := surviving ++ [now]
    ({ allowed := true, remaining := config.maxRequests - updated.length,
       resetTime := record.resetTime },
     { count := updated.length, resetTime := record.resetTime,
       requestTimestamps := updated })

/-- Run a sequence of `checkRateLimit` calls for one key, starting from a
given store entry, returning the per-call results paired with the call
times, and the final store entry. -/
def processCalls (config : RateLimitConfig) (stored : Option RateLimitRecord) :
    List Int → List (Int × RateLimitResult) × Option RateLimitRecord
  | [] => ([], stored)
  | t :: ts =>
    let step := checkRateLimit stored t config
    let rest := processCalls config (some step.2) ts
    ((t, step.1) :: rest.1, rest.2)

/-- Number of calls in a processed trace that were allowed and whose call
time lies in the trailing window `(e - windowMs, e]`. -/
def allowedInWindow (config : RateLimitConfig) (calls : List Int) (e : Int) : Nat :=
  ((processCalls config none calls).1.filter
    (fun p => p.2.allowed && decide (e - config.windowMs < p.1) && decide (p.1 ≤ e))).length

/-- Recursive form of the windowed allowed-call count, convenient for
induction along the trace: counts the calls that are allowed and whose
call time lies in `(e - windowMs, e]`. -/
def allowedCount (config : RateLimitConfig) (e : Int) (s : Option RateLimitRecord) :
    List Int → Nat
  | [] => 0
  | t :: ts =>
    let step := checkRateLimit s t config
    (if step.1.allowed = true ∧ e - config.windowMs < t ∧ t ≤ e then 1 else 0) +
      allowedCount config e (some step.2) ts

theorem processCalls_filter_eq_allowedCount (config : RateLimitConfig) (e : Int) :
    ∀ (cs : List Int) (s : Option RateLimitRecord),
      ((processCalls config s cs).1.filter
        (fun p => p.2.allowed && decide (e - config.windowMs < p.1) && decide (p.1 ≤ e))).length
      = allowedCount config e s cs := by
  intro cs
  induction cs with
  | nil => intro s; simp [processCalls, allowedCount]
  | cons t ts ih =>
    intro s
    simp only [processCalls, allowedCount, List.filter_cons]
    by_cases h : (checkRateLimit s t config).1.allowed = true ∧
        e - config.windowMs < t ∧ t ≤ e
    · have hb : ((checkRateLimit s t config).1.allowed &&
          decide (e - config.windowMs < t) && decide (t ≤ e)) = true := by
        simp [h.1, h.2.1, h.2.2]
      simp [hb, if_pos h, ih, Nat.add_comm]
    · have hb : ((checkRateLimit s t config).1.allowed &&
          decide (e - config.windowMs < t) && decide (t ≤ e)) = false := by
        rcases Decidable.not_and_iff_or_not.mp h with h1 | h23
        · simp [h1]
        · rcases Decidable.not_and_iff_or_not.mp h23 with h2 | h3
          · simp [h2]
          · simp [h3]
      simp [hb, if_neg h, ih]

theorem allowedInWindow_eq_allowedCount (config : RateLimitConfig)
    (calls : List Int) (e : Int) :
    allowedInWindow config calls e = allowedCount config e none calls :=
  processCalls_filter_eq_allowedCount config e calls none

theorem allowedCount_eq_zero_of_late (config : RateLimitConfig) (e : Int) :
    ∀ (cs : List Int), (∀ t ∈ cs, e < t) →
    ∀ (s : Option RateLimitRecord), allowedCount config e s cs = 0 := by
  intro cs
  induction cs with
  | nil => intro _ s; simp [allowedCount]
  | cons t ts ih =>
    intro hlate s
    have ht : e < t := hlate t (List.mem_cons_self t ts)
    have hcond : ¬ ((checkRateLimit s t config).1.allowed = true ∧
        e - config.windowMs < t ∧ t ≤ e) := by
      intro hc
      exact absurd hc.2.2 (not_le.mpr ht)
    simp only [allowedCount, if_neg hcond, Nat.zero_add]
    exact ih (fun x hx => hlate x (List.mem_cons_of_mem t hx)) _

/-- Remaining capacity, from state `s`, for future allowed calls landing in
the trailing window `(e - windowMs, e]`, assuming all future call times
are at least every timestamp of the record.  The first summand is what
the current epoch can still contribute; the multiplier counts how many
future record resets can still open epochs able to reach the window. -/
def budget (config : RateLimitConfig) (e : Int) : Option RateLimitRecord → Nat
  | none => 2 * config.maxRequests
  | some r =>
    (if e - 2 * config.windowMs < r.resetTime - config.windowMs then
      config.maxRequests -
        (r.requestTimestamps.filter (fun x => e - config.windowMs < x)).length
    else 0) +
    config.maxRequests *
      (if e - config.windowMs < r.resetTime - config.windowMs then 0
       else if e - 2 * config.windowMs < r.resetTime - config.windowMs then 1 else 2)

/-- Invariant of a store entry at a moment `t`: the retained list respects
the capacity bound, every retained timestamp is at most the bookkeeping
`resetTime` and at most `t`, and the record's creation time
(`resetTime - windowMs`) is at most `t`.  Every state reachable by calls
at nondecreasing times up to `t` satisfies it. -/
def RLInv (config : RateLimitConfig) (s : Option RateLimitRecord) (t : Int) : Prop :=
  ∀ r, s = some r →
    r.requestTimestamps.length ≤ config.maxRequests ∧
    (∀ x ∈ r.requestTimestamps, x ≤ r.resetTime) ∧
    (∀ x ∈ r.requestTimestamps, x ≤ t) ∧
    r.resetTime - config.windowMs ≤ t

theorem filter_lt_filter_lt (L : List Int) {a b : Int} (hab : a ≤ b) :
    (L.filter (fun x => a < x)).filter (fun x => b < x) = L.filter (fun x => b < x) := by
  rw [List.filter_filter]
  refine List.filter_congr ?_
  intro x _
  by_cases h : b < x
  · have h2 : a < x := lt_of_le_of_lt hab h
    simp [h, h2]
  · simp [h]

theorem checkRateLimit_inv (config : RateLimitConfig) (hW : 0 ≤ config.windowMs)
    {s : Option RateLimitRecord} {t t' : Int} (htt : t ≤ t')
    (hs : RLInv config s t) :
    RLInv config (some (checkRateLimit s t config).2) t' := by
  have hcore : ∀ (R : RateLimitRecord),
      R.requestTimestamps.length ≤ config.maxRequests →
      (∀ x ∈ R.requestTimestamps, x ≤ R.resetTime) →
      (∀ x ∈ R.requestTimestamps, x ≤ t) →
      (t ≤ R.resetTime) →
      R.resetTime - config.windowMs ≤ t →
      RLInv config (some
        (if config.maxRequests ≤
            (R.requestTimestamps.filter (fun x => t - config.windowMs < x)).length then
          (({ allowed := false, remaining := 0,
              resetTime :=
               (R.requestTimestamps.filter (fun x => t - config.windowMs < x)).headD 0 +
                 config.windowMs },
            { R with requestTimestamps :=
               R.requestTimestamps.filter (fun x => t - config.windowMs < x) }) :
            RateLimitResult × RateLimitRecord)
        else
          (({ allowed := true,
              remaining := config.maxRequests -
               (R.requestTimestamps.filter (fun x => t - config.windowMs < x) ++ [t]).length,
              resetTime := R.resetTime },
            { count :=
               (R.requestTimestamps.filter (fun x => t - config.windowMs < x) ++ [t]).length,
              resetTime := R.resetTime,
              requestTimestamps :=
               R.requestTimestamps.filter (fun x => t - config.windowMs < x) ++ [t] }) :
            RateLimitResult × RateLimitRecord)).2) t' := by
    intro R hlen hrt hle hup hdown
    by_cases hd : config.maxRequests ≤
        (R.requestTimestamps.filter (fun x => t - config.windowMs < x)).length
    · rw [if_pos hd]
      intro r' hr'
      cases hr'
      refine ⟨?_, ?_, ?_, ?_⟩
      · exact le_trans (List.length_filter_le _ _) hlen
      · intro x hx
        exact hrt x (List.mem_of_mem_filter hx)
      · intro x hx
        exact le_trans (hle x (List.mem_of_mem_filter hx)) htt
      · exact le_trans hdown htt
    · rw [if_neg hd]
      intro r' hr'
      cases hr'
      have hlt : (R.requestTimestamps.filter (fun x => t - config.windowMs < x)).length <
          config.maxRequests := Nat.lt_of_not_le hd
      refine ⟨?_, ?_, ?_, ?_⟩
      · simpa using hlt
      · intro x hx
        rcases List.mem_append.mp hx with hx | hx
        · exact hrt x (List.mem_of_mem_filter hx)
        · simp only [List.mem_singleton] at hx
          subst hx
          exact hup
      · intro x hx
        rcases List.mem_append.mp hx with hx | hx
        · exact le_trans (hle x (List.mem_of_mem_filter hx)) htt
        · simp only [List.mem_singleton] at hx
          subst hx
          exact htt
      · exact le_trans hdown htt
  rcases s with _ | r
  · have := hcore { count := 0, resetTime := t + config.windowMs, requestTimestamps := [] }
      (by simp) (by simp) (by simp)
      (by show t ≤ t + config.windowMs; omega)
      (by show t + config.windowMs - config.windowMs ≤ t; omega)
    simpa [checkRateLimit, effectiveRecord] using this
  · obtain ⟨h1, h2, h3, h4⟩ := hs r rfl
    by_cases hreset : r.resetTime < t
    · have := hcore { count := 0, resetTime := t + config.windowMs, requestTimestamps := [] }
        (by simp) (by simp) (by simp)
        (by show t ≤ t + config.windowMs; omega)
        (by show t + config.windowMs - config.windowMs ≤ t; omega)
      simpa [checkRateLimit, effectiveRecord, if_pos hreset] using this
    · have := hcore r h1 h2 h3 (le_of_not_lt hreset) h4
      simpa [checkRateLimit, effectiveRecord, if_neg hreset] using this

theorem checkRateLimit_reset_eq (config : RateLimitConfig) {r : RateLimitRecord}
    {t : Int} (hreset : r.resetTime < t) :
    checkRateLimit (some r) t config = checkRateLimit none t config := by
  simp [checkRateLimit, effectiveRecord, if_pos hreset]

theorem checkRateLimit_fresh_deny (config : RateLimitConfig) (t : Int)
    (h : config.maxRequests = 0) :
    checkRateLimit none t config =
      ({ allowed := false
         remaining := 0
         resetTime := config.windowMs },
       { count := 0
         resetTime := t + config.windowMs
         requestTimestamps := [] }) := by
  simp [checkRateLimit, effectiveRecord, h]

theorem checkRateLimit_fresh_allow (config : RateLimitConfig) (t : Int)
    (h : 0 < config.maxRequests) :
    checkRateLimit none t config =
      ({ allowed := true
         remaining := config.maxRequests - 1
         resetTime := t + config.windowMs },
       { count := 1
         resetTime := t + config.windowMs
         requestTimestamps := [t] }) := by
  simp [checkRateLimit, effectiveRecord, Nat.pos_iff_ne_zero.mp h]

theorem checkRateLimit_live_deny (config : RateLimitConfig) (r : RateLimitRecord)
    (t : Int) (hlive : ¬ r.resetTime < t)
    (hd : config.maxRequests ≤
      (r.requestTimestamps.filter (fun x => t - config.windowMs < x)).length) :
    checkRateLimit (some r) t config =
      ({ allowed := false
         remaining := 0
         resetTime :=
          (r.requestTimestamps.filter (fun x => t - config.windowMs < x)).headD 0 +
            config.windowMs },
       { count := r.count
         resetTime := r.resetTime
         requestTimestamps :=
          r.requestTimestamps.filter (fun x => t - config.windowMs < x) }) := by
  simp [checkRateLimit, effectiveRecord, if_neg hlive, if_pos hd]

theorem checkRateLimit_live_allow (config : RateLimitConfig) (r : RateLimitRecord)
    (t : Int) (hlive : ¬ r.resetTime < t)
    (hd : ¬ config.maxRequests ≤
      (r.requestTimestamps.filter (fun x => t - config.windowMs < x)).length) :
    checkRateLimit (some r) t config =
      ({ allowed := true
         remaining := config.maxRequests -
          ((r.requestTimestamps.filter (fun x => t - config.windowMs < x)).length + 1)
         resetTime := r.resetTime },
       { count :=
          (r.requestTimestamps.filter (fun x => t - config.windowMs < x)).length + 1
         resetTime := r.resetTime
         requestTimestamps :=
          r.requestTimestamps.filter (fun x => t - config.windowMs < x) ++ [t] }) := by
  simp [checkRateLimit, effectiveRecord, if_neg hlive, if_neg hd]

theorem fresh_step_budget (config : RateLimitConfig) (hW : 0 ≤ config.windowMs)
    {e t : Int} (hte : t ≤ e) :
    (e - config.windowMs < t →
      (if (checkRateLimit none t config).1.allowed = true ∧
          e - config.windowMs < t ∧ t ≤ e then 1 else 0) +
        budget config e (some (checkRateLimit none t config).2) ≤ config.maxRequests) ∧
    (if (checkRateLimit none t config).1.allowed = true ∧
        e - config.windowMs < t ∧ t ≤ e then 1 else 0) +
      budget config e (some (checkRateLimit none t config).2) ≤ 2 * config.maxRequests := by
  by_cases hM : config.maxRequests = 0
  · rw [checkRateLimit_fresh_deny config t hM]
    rw [if_neg (fun h => Bool.false_ne_true h.1)]
    simp only [budget, List.filter_nil, List.length_nil]
    constructor
    · intro _
      split_ifs <;> omega
    · split_ifs <;> omega
  · have hM' : 0 < config.maxRequests := Nat.pos_of_ne_zero hM
    rw [checkRateLimit_fresh_allow config t hM']
    by_cases hcnt : e - config.windowMs < t
    · rw [if_pos ⟨rfl, hcnt, hte⟩]
      have hone : (([t] : List Int).filter (fun x => e - config.windowMs < x)) = [t] := by
        simp [hcnt]
      simp only [budget, hone, List.length_singleton]
      have h2W : e - 2 * config.windowMs < t + config.windowMs - config.windowMs := by
        omega
      have h1W : e - config.windowMs < t + config.windowMs - config.windowMs := by
        omega
      rw [if_pos h2W, if_pos h1W]
      constructor
      · intro _; omega
      · omega
    · rw [if_neg (fun h => hcnt h.2.1)]
      have hnone : (([t] : List Int).filter (fun x => e - config.windowMs < x)) = [] := by
        simp [hcnt]
      simp only [budget, hnone, List.length_nil]
      have h1W : ¬ e - config.windowMs < t + config.windowMs - config.windowMs := by
        omega
      rw [if_neg h1W]
      constructor
      · intro h; exact absurd h hcnt
      · split_ifs <;> omega

theorem checkRateLimit_budget_step (config : RateLimitConfig) (hW : 0 ≤ config.windowMs)
    {e t : Int} (hte : t ≤ e) {s : Option RateLimitRecord} (hs : RLInv config s t) :
    (if (checkRateLimit s t config).1.allowed = true ∧
        e - config.windowMs < t ∧ t ≤ e then 1 else 0) +
      budget config e (some (checkRateLimit s t config).2) ≤ budget config e s := by
  rcases s with _ | r
  · have h := (fresh_step_budget config hW hte).2
    simpa [budget] using h
  · obtain ⟨hlen, hrt, hle, hdown⟩ := hs r rfl
    by_cases hreset : r.resetTime < t
    · rw [checkRateLimit_reset_eq config hreset]
      have hE : ¬ e - config.windowMs < r.resetTime - config.windowMs := by omega
      by_cases htier : e - 2 * config.windowMs < r.resetTime - config.windowMs
      · have h := (fresh_step_budget config hW hte).1 (by omega)
        have hb : config.maxRequests ≤ budget config e (some r) := by
          simp only [budget, if_pos htier, if_neg hE]
          omega
        omega
      · have h := (fresh_step_budget config hW hte).2
        have hb : 2 * config.maxRequests ≤ budget config e (some r) := by
          simp only [budget, if_neg htier, if_neg hE]
          omega
        omega
    · have hfilt : ((r.requestTimestamps.filter (fun x => t - config.windowMs < x)).filter
          (fun x => e - config.windowMs < x))
          = r.requestTimestamps.filter (fun x => e - config.windowMs < x) :=
        filter_lt_filter_lt r.requestTimestamps (by omega)
      have husedle : (r.requestTimestamps.filter
          (fun x => e - config.windowMs < x)).length
          ≤ (r.requestTimestamps.filter (fun x => t - config.windowMs < x)).length := by
        rw [← hfilt]
        exact List.length_filter_le _ _
      by_cases hdeny : config.maxRequests ≤
          (r.requestTimestamps.filter (fun x => t - config.windowMs < x)).length
      · rw [checkRateLimit_live_deny config r t hreset hdeny]
        rw [if_neg (fun h => Bool.false_ne_true h.1)]
        simp only [budget, hfilt]
        omega
      · rw [checkRateLimit_live_allow config r t hreset hdeny]
        by_cases hcnt : e - config.windowMs < t
        · rw [if_pos ⟨rfl, hcnt, hte⟩]
          have hone : (([t] : List Int).filter (fun x => e - config.windowMs < x)) = [t] := by
            simp [hcnt]
          simp only [budget, List.filter_append, List.length_append, hfilt, hone,
            List.length_singleton]
          have htier2 : e - 2 * config.windowMs < r.resetTime - config.windowMs := by
            omega
          rw [if_pos htier2, if_pos htier2]
          have hmax : (r.requestTimestamps.filter
              (fun x => e - config.windowMs < x)).length < config.maxRequests := by
            omega
          split_ifs <;> omega
        · rw [if_neg (fun h => hcnt h.2.1)]
          have hnone : (([t] : List Int).filter (fun x => e - config.windowMs < x)) = [] := by
            simp [hcnt]
          simp only [budget, List.filter_append, List.length_append, hfilt, hnone,
            List.length_nil]
          split_ifs <;> omega

theorem allowedCount_le_budget (config : RateLimitConfig) (hW : 0 ≤ config.windowMs)
    (e : Int) :
    ∀ (cs : List Int), List.Pairwise (· ≤ ·) cs →
    ∀ (s : Option RateLimitRecord), (∀ t ∈ cs, RLInv config s t) →
      allowedCount config e s cs ≤ budget config e s := by
  intro cs
  induction cs with
  | nil =>
    intro _ s _
    simp only [allowedCount]
    exact Nat.zero_le _
  | cons t ts ih =>
    intro hsorted s hinv
    obtain ⟨hts_ge, hts_sorted⟩ := List.pairwise_cons.mp hsorted
    by_cases hte : t ≤ e
    · have hinv_t : RLInv config s t := hinv t (List.mem_cons_self t ts)
      have hstep := checkRateLimit_budget_step config hW hte hinv_t
      have hnext_inv : ∀ t' ∈ ts, RLInv config (some (checkRateLimit s t config).2) t' :=
        fun t' ht' => checkRateLimit_inv config hW (hts_ge t' ht') hinv_t
      have htail := ih hts_sorted _ hnext_inv
      simp only [allowedCount]
      omega
    · have h0 : allowedCount config e (some (checkRateLimit s t config).2) ts = 0 :=
        allowedCount_eq_zero_of_late config e ts
          (fun x hx => lt_of_lt_of_le (lt_of_not_le hte) (hts_ge x hx)) _
      have hcond : ¬ ((checkRateLimit s t config).1.allowed = true ∧
          e - config.windowMs < t ∧ t ≤ e) := fun hc => hte hc.2.2
      simp only [allowedCount, if_neg hcond, h0]
      exact Nat.zero_le _

theorem allowedInWindow_le_two_mul (config : RateLimitConfig)
    (hW : 0 ≤ config.windowMs) (calls : List Int)
    (hsorted : List.Pairwise (· ≤ ·) calls) (e : Int) :
    allowedInWindow config calls e ≤ 2 * config.maxRequests := by
  rw [allowedInWindow_eq_allowedCount]
  have h := allowedCount_le_budget config hW e calls hsorted none
    (fun _ _ r hr => Option.noConfusion hr)
  simpa [budget] using h

/-- Result of one admission step as the specification text describes it:
the decision, the remaining quota, the reported reset time when denied,
and the timestamp list written back. -/
structure SpecAdmitResult where
  allowed : Bool
  remaining : Nat
  resetOnDeny : Option Int
  newTimestamps : List Int
  deriving Repr, DecidableEq

/-- Admission step following the specification sentence word for word
(refinement model, written from the spec, not from the source): drop the
timestamps outside the current window from the record, deny when the
surviving count is at least `maxRequests` (reporting the oldest surviving
timestamp plus the window), otherwise record `now`, allow, and report
`remaining = maxRequests - newCount`.  It has no bookkeeping-reset step. -/
def specAdmit (timestamps : List Int) (now : Int) (config : RateLimitConfig) :
    SpecAdmitResult :=
  let surviving := timestamps.filter (fun t => now - config.windowMs < t)
  if config.maxRequests ≤ surviving.length then
    { allowed := false
      remaining := 0
      resetOnDeny := some (surviving.headD 0 + config.windowMs)
      newTimestamps := surviving }
  else
    let updated := surviving ++ [now]
    { allowed := true
      remaining := config.maxRequests - updated.length
      resetOnDeny := none
      newTimestamps := updated }

/-- Trace form of `specAdmit`, for comparing whole call sequences with
`processCalls`. -/
def specProcessCalls (config : RateLimitConfig) (timestamps : List Int) :
    List Int → List SpecAdmitResult × List Int
  | [] => ([], timestamps)
  | t :: ts =>
    let step := specAdmit timestamps t config
    let rest := specProcessCalls config step.newTimestamps ts
    (step :: rest.1, rest.2)

theorem checkRateLimit_refines_specAdmit (stored : Option RateLimitRecord)
    (now : Int) (config : RateLimitConfig) :
    (checkRateLimit stored now config).1.allowed
      = (specAdmit (effectiveRecord stored now config).requestTimestamps now config).allowed
    ∧ (checkRateLimit stored now config).1.remaining
      = (specAdmit (effectiveRecord stored now config).requestTimestamps now config).remaining
    ∧ ((checkRateLimit stored now config).1.allowed = false →
        some (checkRateLimit stored now config).1.resetTime
          = (specAdmit (effectiveRecord stored now config).requestTimestamps now
              config).resetOnDeny)
    ∧ (checkRateLimit stored now config).2.requestTimestamps
      = (specAdmit (effectiveRecord stored now config).requestTimestamps now
          config).newTimestamps := by
  by_cases hd : config.maxRequests ≤
      ((effectiveRecord stored now config).requestTimestamps.filter
        (fun x => now - config.windowMs < x)).length
  · simp [checkRateLimit, specAdmit, if_pos hd]
  · simp [checkRateLimit, specAdmit, if_neg hd]

theorem filter_in_window (L : List Int) (now W : Int) (h : ∀ x ∈ L, now - W < x) :
    L.filter (fun x => now - W < x) = L :=
  List.filter_eq_self.mpr (fun a ha => by simpa using h a ha)

theorem five_then_deny (W t1 t2 t3 t4 t5 t6 : Int)
    (h12 : t1 ≤ t2) (h23 : t2 ≤ t3) (h34 : t3 ≤ t4) (h45 : t4 ≤ t5) (h56 : t5 ≤ t6)
    (h6 : t6 < t1 + W) :
    (processCalls { maxRequests := 5, windowMs := W } none [t1, t2, t3, t4, t5, t6]).1
      = [(t1, { allowed := true, remaining := 4, resetTime := t1 + W }),
         (t2, { allowed := true, remaining := 3, resetTime := t1 + W }),
         (t3, { allowed := true, remaining := 2, resetTime := t1 + W }),
         (t4, { allowed := true, remaining := 1, resetTime := t1 + W }),
         (t5, { allowed := true, remaining := 0, resetTime := t1 + W }),
         (t6, { allowed := false, remaining := 0, resetTime := t1 + W })] := by
  have hl2 : ([t1] : List Int).filter (fun x => t2 - W < x) = [t1] :=
    filter_in_window [t1] t2 W (by intro x hx; simp at hx; omega)
  have hl3 : ([t1, t2] : List Int).filter (fun x => t3 - W < x) = [t1, t2] :=
    filter_in_window [t1, t2] t3 W (by intro x hx; simp at hx; rcases hx with h | h <;> omega)
  have hl4 : ([t1, t2, t3] : List Int).filter (fun x => t4 - W < x) = [t1, t2, t3] :=
    filter_in_window [t1, t2, t3] t4 W
      (by intro x hx; simp at hx; rcases hx with h | h | h <;> omega)
  have hl5 : ([t1, t2, t3, t4] : List Int).filter (fun x => t5 - W < x) = [t1, t2, t3, t4] :=
    filter_in_window [t1, t2, t3, t4] t5 W
      (by intro x hx; simp at hx; rcases hx with h | h | h | h <;> omega)
  have hl6 : ([t1, t2, t3, t4, t5] : List Int).filter (fun x => t6 - W < x)
      = [t1, t2, t3, t4, t5] :=
    filter_in_window [t1, t2, t3, t4, t5] t6 W
      (by intro x hx; simp at hx; rcases hx with h | h | h | h | h <;> omega)
  have e1 : checkRateLimit none t1 { maxRequests := 5, windowMs := W }
      = ({ allowed := true, remaining := 4, resetTime := t1 + W },
         { count := 1, resetTime := t1 + W, requestTimestamps := [t1] }) := by
    rw [checkRateLimit_fresh_allow _ t1 (by norm_num)]
    rfl
  have e2 : checkRateLimit
      (some { count := 1, resetTime := t1 + W, requestTimestamps := [t1] }) t2
      { maxRequests := 5, windowMs := W }
      = ({ allowed := true, remaining := 3, resetTime := t1 + W },
         { count := 2, resetTime := t1 + W, requestTimestamps := [t1, t2] }) := by
    rw [checkRateLimit_live_allow _ _ t2 (by simp; omega) (by simp [hl2]), hl2]
    rfl
  have e3 : checkRateLimit
      (some { count := 2, resetTime := t1 + W, requestTimestamps := [t1, t2] }) t3
      { maxRequests := 5, windowMs := W }
      = ({ allowed := true, remaining := 2, resetTime := t1 + W },
         { count := 3, resetTime := t1 + W, requestTimestamps := [t1, t2, t3] }) := by
    rw [checkRateLimit_live_allow _ _ t3 (by simp; omega) (by simp [hl3]), hl3]
    rfl
  have e4 : checkRateLimit
      (some { count := 3, resetTime := t1 + W, requestTimestamps := [t1, t2, t3] }) t4
      { maxRequests := 5, windowMs := W }
      = ({ allowed := true, remaining := 1, resetTime := t1 + W },
         { count := 4, resetTime := t1 + W, requestTimestamps := [t1, t2, t3, t4] }) := by
    rw [checkRateLimit_live_allow _ _ t4 (by simp; omega) (by simp [hl4]), hl4]
    rfl
  have e5 : checkRateLimit
      (some { count := 4, resetTime := t1 + W,
              requestTimestamps := [t1, t2, t3, t4] }) t5
      { maxRequests := 5, windowMs := W }
      = ({ allowed := true, remaining := 0, resetTime := t1 + W },
         { count := 5, resetTime := t1 + W,
           requestTimestamps := [t1, t2, t3, t4, t5] }) := by
    rw [checkRateLimit_live_allow _ _ t5 (by simp; omega) (by simp [hl5]), hl5]
    rfl
  have e6 : checkRateLimit
      (some { count := 5, resetTime := t1 + W,
              requestTimestamps := [t1, t2, t3, t4, t5] }) t6
      { maxRequests := 5, windowMs := W }
      = ({ allowed := false, remaining := 0, resetTime := t1 + W },
         { count := 5, resetTime := t1 + W,
           requestTimestamps := [t1, t2, t3, t4, t5] }) := by
    rw [checkRateLimit_live_deny _ _ t6 (by simp; omega) (by simp [hl6]), hl6]
    simp
  simp only [processCalls, e1, e2, e3, e4, e5, e6]

theorem denied_leaves_only_pruned (config : RateLimitConfig)
    (hM : 1 ≤ config.maxRequests) (stored : Option RateLimitRecord) (now : Int)
    (hdenied : (checkRateLimit stored now config).1.allowed = false) :
    (checkRateLimit stored now config).2.requestTimestamps
      = (match stored with
         | none => ([] : List Int)
         | some r => r.requestTimestamps).filter (fun x => now - config.windowMs < x)
    ∧ checkRateLimit (some (checkRateLimit stored now config).2) now config
      = checkRateLimit stored now config := by
  rcases stored with _ | r
  · exfalso
    rw [checkRateLimit_fresh_allow config now hM] at hdenied
    simp at hdenied
  · by_cases hreset : r.resetTime < now
    · exfalso
      rw [checkRateLimit_reset_eq config hreset,
        checkRateLimit_fresh_allow config now hM] at hdenied
      simp at hdenied
    · by_cases hd : config.maxRequests ≤
          (r.requestTimestamps.filter (fun x => now - config.windowMs < x)).length
      · rw [checkRateLimit_live_deny config r now hreset hd]
        have hff : ((r.requestTimestamps.filter
            (fun x => now - config.windowMs < x)).filter
            (fun x => now - config.windowMs < x))
            = r.requestTimestamps.filter (fun x => now - config.windowMs < x) :=
          filter_lt_filter_lt r.requestTimestamps le_rfl
        constructor
        · rfl
        · rw [checkRateLimit_live_deny config _ now (by simpa using hreset) (by simpa [hff] using hd)]
          simp [hff]
      · exfalso
        rw [checkRateLimit_live_allow config r now hreset hd] at hdenied
        simp at hdenied

/-! ## Event dispatch ledger (`src/lib/event-dispatch.ts`) -/

/-- Rows of the `EventDispatch` table: one `(orderId, eventName)` pair per
dispatched event, guarded by the composite unique constraint
`orderId_eventName`. -/
structure LedgerState where
  rows : List (String × String)
  deriving Repr, DecidableEq

/-- Outcome of `eventDispatch.findUnique`: the row's presence on success, a
thrown error (unmigrated table, unreachable store) when the success oracle
`ok` is false. -/
def ledgerFindUnique (ok : Bool) (st : LedgerState) (key : String × String) :
    Except Unit Bool :=
  if ok then Except.ok (key ∈ st.rows) else Except.error ()

/-- Outcome of `eventDispatch.create`: inserts the row, throwing on a
uniqueness violation (row already present) or, when the success oracle is
false, on a store failure. -/
def ledgerCreate (ok : Bool) (st : LedgerState) (key : String × String) :
    Except Unit LedgerState :=
  if ok then
    if key ∈ st.rows then Except.error ()
    else Except.ok { rows := st.rows ++ [key] }
  else Except.error ()

/-- Embedding of `hasDispatched`: try the lookup; any thrown error is
caught and reported as "not dispatched". -/
def hasDispatched (ok : Bool) (st : LedgerState) (orderId eventName : String) : Bool :=
  match ledgerFindUnique ok st (orderId, eventName) with
  | Except.ok r => r
  | Except.error _ => false

/-- Embedding of `markDispatched`: try the insert; any thrown error
(uniqueness violation included) is caught and ignored, so the call always
returns normally and a failed insert leaves the ledger unchanged. -/
def markDispatched (ok : Bool) (st : LedgerState) (orderId eventName : String) :
    LedgerState :=
  match ledgerCreate ok st (orderId, eventName) with
  | Except.ok st2 => st2
  | Except.error _ => st

/-! ## Order lifecycle (`PATCH /api/orders/[orderId]`) -/

inductive OrderStatus
  | PENDING
  | IN_DELIVERY
  | PAUSED
  | DELIVERED
  | FAILED
  deriving Repr, DecidableEq

inductive PaymentStatus
  | PAID
  | UNPAID
  deriving Repr, DecidableEq

inductive PaymentMethod
  | CARD
  | CASH
  deriving Repr, DecidableEq

inductive Role
  | SUPER_ADMIN
  | MIDDLE_ADMIN
  | LOW_ADMIN
  | COURIER
  deriving Repr, DecidableEq

inductive OrderAction
  | start_delivery
  | pause_delivery
  | resume_delivery
  | complete_delivery
  deriving Repr, DecidableEq

/-- Order row of the database (the fields the scheduler and the lifecycle
handler read or write). -/
structure Order where
  id : String
  orderNumber : Int
  customerId : String
  adminId : String
  courierId : Option String
  deliveryAddress : String
  deliveryDate : Option Int
  deliveryTime : String
  quantity : Nat
  calories : Nat
  specialFeatures : String
  paymentStatus : PaymentStatus
  paymentMethod : PaymentMethod
  isPrepaid : Bool
  orderStatus : OrderStatus
  deliveredAt : Option Int
  deriving Repr, DecidableEq

/-- Error classes the `PATCH` handler returns before touching the order. -/
inductive PatchError
  | forbidden
  | invalidState
  deriving Repr, DecidableEq

/-- Embedding of the `switch (action)` block of the `PATCH` handler: each
action first checks the caller's role, then (except `complete_delivery`,
which has no state test in the source) the current status, and otherwise
returns the updated order.  Errors leave the order untouched because the
handler returns before the database update. -/
def applyOrderAction (role : Role) (userId : String) (now : Int) (order : Order) :
    OrderAction → Except PatchError Order
  | OrderAction.start_delivery =>
    if role ≠ Role.COURIER then Except.error PatchError.forbidden
    else if order.orderStatus ≠ OrderStatus.PENDING then Except.error PatchError.invalidState
    else Except.ok { order with
      orderStatus := OrderStatus.IN_DELIVERY
      courierId := some userId }
  | OrderAction.pause_delivery =>
    if role ≠ Role.COURIER then Except.error PatchError.forbidden
    else if order.orderStatus ≠ OrderStatus.IN_DELIVERY then Except.error PatchError.invalidState
    else Except.ok { order with orderStatus := OrderStatus.PAUSED }
  | OrderAction.resume_delivery =>
    if role ≠ Role.COURIER then Except.error PatchError.forbidden
    else if order.orderStatus ≠ OrderStatus.PAUSED then Except.error PatchError.invalidState
    else Except.ok { order with orderStatus := OrderStatus.IN_DELIVERY }
  | OrderAction.complete_delivery =>
    if role ≠ Role.COURIER then Except.error PatchError.forbidden
    else Except.ok { order with
      orderStatus := OrderStatus.DELIVERED
      deliveredAt := some now }

/-- Which analytics endpoints hold the configuration they need; an
unconfigured endpoint is a silent no-op, not an external call. -/
structure AnalyticsConfig where
  ga4Configured : Bool
  metaConfigured : Bool
  deriving Repr, DecidableEq

/-- Counters of outbound analytics activity: network attempts per endpoint
and how many of those attempts hit a network failure. -/
structure DispatchCounters where
  ga4Attempts : Nat
  metaAttempts : Nat
  networkFailures : Nat
  deriving Repr, DecidableEq

/-- State threaded through lifecycle steps: the order row, the dispatch
ledger, and the external-call counters. -/
structure PatchWorld where
  order : Order
  ledger : LedgerState
  counters : DispatchCounters
  deriving Repr, DecidableEq

/-- Embedding of the fire-and-forget dispatch block of the `PATCH` handler:
consult the ledger first; when the event is not recorded, attempt each
configured endpoint (`Promise.allSettled`, so an endpoint's network
failure is collected, never propagated) and then call `markDispatched`
regardless of the endpoint outcomes. -/
def runDispatchFlow (cfg : AnalyticsConfig) (readOk writeOk gaNetOk metaNetOk : Bool)
    (ledger : LedgerState) (counters : DispatchCounters) (orderId : String) :
    LedgerState × DispatchCounters :=
  if hasDispatched readOk ledger orderId "order_paid" then (ledger, counters)
  else
    let counters2 : DispatchCounters :=
      { ga4Attempts := counters.ga4Attempts + (if cfg.ga4Configured then 1 else 0)
        metaAttempts := counters.metaAttempts + (if cfg.metaConfigured then 1 else 0)
        networkFailures := counters.networkFailures +
          (if cfg.ga4Configured ∧ ¬ gaNetOk then 1 else 0) +
          (if cfg.metaConfigured ∧ ¬ metaNetOk then 1 else 0) }
    (markDispatched writeOk ledger orderId "order_paid", counters2)

/-- Embedding of the `PATCH` handler after authentication and validation:
apply the action; on success persist the updated order and, when the
updated order is `PAID` or is a cash order that reached `DELIVERED`, run
the dispatch flow.  An action error returns before any update. -/
def patchOrderStatus (cfg : AnalyticsConfig) (readOk writeOk gaNetOk metaNetOk : Bool)
    (role : Role) (userId : String) (now : Int) (action : OrderAction)
    (w : PatchWorld) : Except PatchError PatchWorld :=
  match applyOrderAction role userId now w.order action with
  | Except.error e => Except.error e
  | Except.ok updated =>
    if updated.paymentStatus = PaymentStatus.PAID ∨
        (updated.orderStatus = OrderStatus.DELIVERED ∧
          updated.paymentMethod = PaymentMethod.CASH) then
      let df := runDispatchFlow cfg readOk writeOk gaNetOk metaNetOk
        w.ledger w.counters updated.id
      Except.ok { order := updated, ledger := df.1, counters := df.2 }
    else
      Except.ok { order := updated, ledger := w.ledger, counters := w.counters }

/-- Run a sequence of lifecycle actions (each with its own clock value)
through `patchOrderStatus`, stopping at the first error. -/
def runActions (cfg : AnalyticsConfig) (readOk writeOk gaNetOk metaNetOk : Bool)
    (role : Role) (userId : String) :
    List (OrderAction × Int) → PatchWorld → Except PatchError PatchWorld
  | [], w => Except.ok w
  | (a, now) :: rest, w =>
    match patchOrderStatus cfg readOk writeOk gaNetOk metaNetOk role userId now a w with
    | Except.error e => Except.error e
    | Except.ok w2 => runActions cfg readOk writeOk gaNetOk metaNetOk role userId rest w2

/-! ## Recurring order scheduler (`server.ts`) -/

/-- Milliseconds per day; JavaScript `Date` day arithmetic is modelled in
UTC as adding this constant. -/
def dayMs : Int := 86400000

/-- Day names indexed as JavaScript `Date.getDay` numbers them (0 is
Sunday). -/
def dayNames : List String :=
  ["sunday", "monday", "tuesday", "wednesday", "thursday", "friday", "saturday"]

/-- Embedding of `getDayOfWeek`: 1970-01-01 (epoch day 0) is a Thursday,
index 4. -/
def getDayOfWeek (ms : Int) : String :=
  dayNames.getD ((ms.fdiv dayMs + 4) % 7).toNat ""

/-- Embedding of `has30DaysPassed`: the floored day difference between the
clock and the given timestamp reaches 30. -/
def has30DaysPassed (now date : Int) : Bool :=
  30 ≤ (now - date).fdiv dayMs

/-- Weekly delivery flags, one per weekday. -/
structure ClientDeliveryDays where
  monday : Bool
  tuesday : Bool
  wednesday : Bool
  thursday : Bool
  friday : Bool
  saturday : Bool
  sunday : Bool
  deriving Repr, DecidableEq

/-- Lookup `client.deliveryDays[dayOfWeek]`; an unknown key reads as
`undefined`, which is falsy. -/
def deliveryDayFlag (d : ClientDeliveryDays) : String → Bool
  | "monday" => d.monday
  | "tuesday" => d.tuesday
  | "wednesday" => d.wednesday
  | "thursday" => d.thursday
  | "friday" => d.friday
  | "saturday" => d.saturday
  | "sunday" => d.sunday
  | _ => false

def allDaysTrue : ClientDeliveryDays :=
  { monday := true, tuesday := true, wednesday := true, thursday := true,
    friday := true, saturday := true, sunday := true }

def noDaysSelected : ClientDeliveryDays :=
  { monday := false, tuesday := false, wednesday := false, thursday := false,
    friday := false, saturday := false, sunday := false }

/-- Customer row of the database, as the scheduler reads it.  `updatedAt`
doubles as the last-scheduler-check timestamp. -/
structure Customer where
  id : String
  name : String
  phone : String
  address : String
  preferences : Option String
  orderPattern : Option String
  isActive : Bool
  createdAt : Int
  updatedAt : Option Int
  deriving Repr, DecidableEq

/-- Admin row (only the fields the scheduler consults). -/
structure Admin where
  id : String
  role : String
  deriving Repr, DecidableEq

/-- Database state the scheduler reads and writes. -/
structure Db where
  customers : List Customer
  admins : List Admin
  orders : List Order
  deriving Repr, DecidableEq

/-- In-memory client snapshot (`ClientData` in `server.ts`). -/
structure ClientData where
  id : String
  name : String
  phone : String
  address : String
  calories : Nat
  specialFeatures : String
  deliveryDays : ClientDeliveryDays
  autoOrdersEnabled : Bool
  isActive : Bool
  createdAt : Int
  lastAutoOrderCheck : Option Int
  deriving Repr, DecidableEq

/-- Embedding of `db.customer.findUnique({ where: { id } })`. -/
def findCustomerById (db : Db) (id : String) : Option Customer :=
  db.customers.find? (fun c => c.id = id)

/-- Embedding of `db.admin.findFirst({ where: { role: SUPER_ADMIN } })`. -/
def findSuperAdmin (db : Db) : Option Admin :=
  db.admins.find? (fun a => a.role = "SUPER_ADMIN")

/-- Embedding of the order-number query: highest existing `orderNumber`
plus one, or `1` when there are no orders. -/
def nextOrderNumber (orders : List Order) : Int :=
  match orders.map (fun o => o.orderNumber) with
  | [] => 1
  | n :: ns => ns.foldl max n + 1

/-- Order row the scheduler inserts for one delivery date (`db.order.create`
inside `createAutoOrdersForClient`; the row id itself is generated by the
database and plays no role here, so it is left empty). -/
def mkAutoOrder (orderNumber : Int) (customerId adminId : String) (client : ClientData)
    (date : Int) (time : String) : Order :=
  { id := ""
    orderNumber := orderNumber
    customerId := customerId
    adminId := adminId
    courierId := none
    deliveryAddress := client.address
    deliveryDate := some date
    deliveryTime := time
    quantity := 1
    calories := client.calories
    specialFeatures := client.specialFeatures
    paymentStatus := PaymentStatus.UNPAID
    paymentMethod := PaymentMethod.CASH
    isPrepaid := false
    orderStatus := OrderStatus.PENDING
    deliveredAt := none }

/-- Date loop of `createAutoOrdersForClient`: walk one day at a time while
`currentDate ≤ endDate`; on a flagged weekday recompute the next order
number from the whole table and insert, with a per-date failure oracle
standing for a thrown `db.order.create` (caught and logged, the loop
continues).  `genTime` stands for the random `generateDeliveryTime`.  The
fuel only bounds recursion; the wrapper passes enough for the loop to exit
on its own date test. -/
def autoOrderLoop (genTime : Int → String) (fail : Int → Bool) (client : ClientData)
    (customerId adminId : String) (endDate : Int) :
    Nat → Int → Db → Db × List Order
  | 0, _, db => (db, [])
  | fuel + 1, currentDate, db =>
    if currentDate ≤ endDate then
      if deliveryDayFlag client.deliveryDays (getDayOfWeek currentDate) then
        if fail currentDate then
          autoOrderLoop genTime fail client customerId adminId endDate fuel
            (currentDate + dayMs) db
        else
          let newOrder := mkAutoOrder (nextOrderNumber db.orders) customerId adminId
            client currentDate (genTime currentDate)
          let db2 : Db := { db with orders := db.orders ++ [newOrder] }
          let rest := autoOrderLoop genTime fail client customerId adminId endDate fuel
            (currentDate + dayMs) db2
          (rest.1, newOrder :: rest.2)
      else
        autoOrderLoop genTime fail client customerId adminId endDate fuel
          (currentDate + dayMs) db
    else (db, [])

/-- Embedding of `createAutoOrdersForClient`: verify the client row and a
default `SUPER_ADMIN` exist (otherwise nothing is created), then run the
date loop from `startDate` to `endDate`. -/
def createAutoOrdersForClient (genTime : Int → String) (fail : Int → Bool) (db : Db)
    (client : ClientData) (startDate endDate : Int) : Db × List Order :=
  match findCustomerById db client.id with
  | none => (db, [])
  | some dbClient =>
    match findSuperAdmin db with
    | none => (db, [])
    | some defaultAdmin =>
      autoOrderLoop genTime fail client dbClient.id defaultAdmin.id endDate
      ((endDate + dayMs - startDate).toNat / 86400000 + 1) startDate db

/-- Embedding of `updateClientLastCheck`: stamp the customer's `updatedAt`
with the clock. -/
def updateClientLastCheck (db : Db) (clientId : String) (now : Int) : Db :=
  { db with customers := db.customers.map (fun c =>
      if c.id = clientId then { c with updatedAt := some now } else c) }

/-- Delivery-pattern resolution inside the scheduler loop: only the string
`daily` selects any days; every other pattern value falls through to the
all-false default. -/
def resolveDeliveryDays (orderPattern : Option String) : ClientDeliveryDays :=
  if orderPattern = some "daily" then allDaysTrue else noDaysSelected

/-- Eligibility test of the scheduler: 30 days since creation or 30 days
since the last check (which defaults to creation). -/
def clientIsEligible (now : Int) (c : Customer) : Bool :=
  has30DaysPassed now c.createdAt || has30DaysPassed now (c.updatedAt.getD c.createdAt)

/-- Active customers passing the eligibility filter, in table order. -/
def eligibleClients (db : Db) (now : Int) : List Customer :=
  (db.customers.filter (fun c => c.isActive)).filter (fun c => clientIsEligible now c)

/-- The `ClientData` snapshot the scheduler builds for one customer
(calories default to 2000 in the source). -/
def toClientData (c : Customer) : ClientData :=
  { id := c.id
    name := c.name
    phone := c.phone
    address := c.address
    calories := 2000
    specialFeatures := c.preferences.getD ""
    deliveryDays := resolveDeliveryDays c.orderPattern
    autoOrdersEnabled := true
    isActive := c.isActive
    createdAt := c.createdAt
    lastAutoOrderCheck := c.updatedAt }

/-- Per-customer body of the scheduler loop: generate orders for the next
30 days, then stamp the last-check timestamp; the failure oracle is keyed
by customer id and date. -/
def schedulerProcess (genTime : Int → String) (fail : String → Int → Bool) (now : Int) :
    List Customer → Db → Db × Nat
  | [], db => (db, 0)
  | c :: rest, db =>
    let res := createAutoOrdersForClient genTime (fail c.id) db (toClientData c)
      now (now + 30 * dayMs)
    let db2 := updateClientLastCheck res.1 c.id now
    let tail := schedulerProcess genTime fail now rest db2
    (tail.1, res.2.length + tail.2)

/-- Embedding of `runAutoOrderScheduler`: one run over the eligible active
customers, returning the final database and the total number of orders
created. -/
def runAutoOrderScheduler (genTime : Int → String) (fail : String → Int → Bool)
    (db : Db) (now : Int) : Db × Nat :=
  schedulerProcess genTime fail now (eligibleClients db now) db

theorem dayMs_pos : (0 : Int) < dayMs := by norm_num [dayMs]

theorem has30DaysPassed_iff (now date : Int) :
    has30DaysPassed now date = true ↔ 30 * dayMs ≤ now - date := by
  unfold has30DaysPassed
  rw [decide_eq_true_eq]
  rw [Int.fdiv_eq_ediv _ (le_of_lt dayMs_pos)]
  exact Int.le_ediv_iff_mul_le dayMs_pos

theorem deliveryDayFlag_allDaysTrue (ms : Int) :
    deliveryDayFlag allDaysTrue (getDayOfWeek ms) = true := by
  have hb : ∀ n : Nat, n < 7 → deliveryDayFlag allDaysTrue (dayNames.getD n "") = true := by
    decide
  have h7 : ((ms.fdiv dayMs + 4) % 7).toNat < 7 := by omega
  unfold getDayOfWeek
  exact hb _ h7

theorem deliveryDayFlag_noDaysSelected (s : String) :
    deliveryDayFlag noDaysSelected s = false := by
  unfold deliveryDayFlag
  split <;> rfl

theorem nextOrderNumber_snoc (orders : List Order) (o : Order)
    (h : o.orderNumber = nextOrderNumber orders) :
    nextOrderNumber (orders ++ [o]) = o.orderNumber + 1 := by
  cases hm : orders.map (fun x => x.orderNumber) with
  | nil =>
    unfold nextOrderNumber
    rw [List.map_append, hm]
    simp
  | cons n ns =>
    have hval : nextOrderNumber orders = ns.foldl max n + 1 := by
      unfold nextOrderNumber
      rw [hm]
    rw [hval] at h
    unfold nextOrderNumber
    rw [List.map_append, hm]
    simp only [List.map_cons, List.map_nil, List.cons_append]
    rw [List.foldl_append]
    simp only [List.foldl_cons, List.foldl_nil]
    rw [max_eq_right (by omega : ns.foldl max n ≤ o.orderNumber)]

/-- Closed form of the run of auto orders a daily client receives:
consecutive order numbers from `startNumber` and consecutive delivery
dates from `base`. -/
def expectedOrders (genTime : Int → String) (client : ClientData)
    (customerId adminId : String) (base startNumber : Int) (k : Nat) : List Order :=
  (List.range (k + 1)).map (fun (i : Nat) =>
    mkAutoOrder (startNumber + (i : Int)) customerId adminId client
      (base + (i : Int) * dayMs) (genTime (base + (i : Int) * dayMs)))

theorem expectedOrders_succ (genTime : Int → String) (client : ClientData)
    (customerId adminId : String) (base startNumber : Int) (k : Nat) :
    expectedOrders genTime client customerId adminId base startNumber (k + 1)
      = mkAutoOrder startNumber customerId adminId client base (genTime base)
        :: expectedOrders genTime client customerId adminId (base + dayMs)
            (startNumber + 1) k := by
  unfold expectedOrders
  rw [List.range_succ_eq_map]
  simp only [List.map_cons, List.map_map]
  congr 1
  · simp
  · apply List.map_congr_left
    intro i _
    simp only [Function.comp]
    push_cast
    have e1 : startNumber + ((i : Int) + 1) = startNumber + 1 + (i : Int) := by ring
    have e2 : base + ((i : Int) + 1) * dayMs = base + dayMs + (i : Int) * dayMs := by ring
    rw [e1, e2]

theorem autoOrderLoop_step (genTime : Int → String) (fail : Int → Bool)
    (client : ClientData) (customerId adminId : String) (endDate : Int)
    (fuel : Nat) (currentDate : Int) (db : Db) :
    autoOrderLoop genTime fail client customerId adminId endDate (fuel + 1)
      currentDate db
    = if currentDate ≤ endDate then
        if deliveryDayFlag client.deliveryDays (getDayOfWeek currentDate) then
          if fail currentDate then
            autoOrderLoop genTime fail client customerId adminId endDate fuel
              (currentDate + dayMs) db
          else
            ((autoOrderLoop genTime fail client customerId adminId endDate fuel
                (currentDate + dayMs)
                { db with orders := (db.orders ++
                    [mkAutoOrder (nextOrderNumber db.orders) customerId adminId client
                      currentDate (genTime currentDate)]) }).1,
             mkAutoOrder (nextOrderNumber db.orders) customerId adminId client
                currentDate (genTime currentDate)
              :: (autoOrderLoop genTime fail client customerId adminId endDate fuel
                  (currentDate + dayMs)
                  { db with orders := (db.orders ++
                      [mkAutoOrder (nextOrderNumber db.orders) customerId adminId client
                        currentDate (genTime currentDate)]) }).2)
        else
          autoOrderLoop genTime fail client customerId adminId endDate fuel
            (currentDate + dayMs) db
      else (db, []) := rfl

theorem autoOrderLoop_daily (genTime : Int → String) (client : ClientData)
    (customerId adminId : String) (hdays : client.deliveryDays = allDaysTrue) :
    ∀ (k fuel : Nat), k + 2 ≤ fuel → ∀ (cur : Int) (db : Db),
      autoOrderLoop genTime (fun _ => false) client customerId adminId
        (cur + (k : Int) * dayMs) fuel cur db
      = ({ db with orders := (db.orders ++
            expectedOrders genTime client customerId adminId cur
              (nextOrderNumber db.orders) k) },
         expectedOrders genTime client customerId adminId cur
           (nextOrderNumber db.orders) k) := by
  intro k
  induction k with
  | zero =>
    intro fuel hfuel cur db
    obtain ⟨f, rfl⟩ : ∃ f, fuel = f + 2 := ⟨fuel - 2, by omega⟩
    have hend : cur + ((0 : Nat) : Int) * dayMs = cur := by push_cast; ring
    rw [hend]
    rw [autoOrderLoop_step, if_pos (le_refl cur), hdays, deliveryDayFlag_allDaysTrue,
      if_pos rfl, if_neg (by simp)]
    rw [autoOrderLoop_step, if_neg (by have := dayMs_pos; omega : ¬ cur + dayMs ≤ cur)]
    unfold expectedOrders
    simp [show List.range 1 = [0] from rfl, mkAutoOrder]
  | succ k ih =>
    intro fuel hfuel cur db
    obtain ⟨f, rfl⟩ : ∃ f, fuel = f + 2 := ⟨fuel - 2, by omega⟩
    have hcond : cur ≤ cur + ((k + 1 : Nat) : Int) * dayMs := by
      have h1 : (0 : Int) ≤ ((k + 1 : Nat) : Int) * dayMs :=
        mul_nonneg (by positivity) (le_of_lt dayMs_pos)
      omega
    have hsh : cur + ((k + 1 : Nat) : Int) * dayMs
        = (cur + dayMs) + (k : Int) * dayMs := by push_cast; ring
    rw [autoOrderLoop_step, if_pos hcond, hdays, deliveryDayFlag_allDaysTrue,
      if_pos rfl, if_neg (by simp)]
    rw [hsh, ih (f + 1) (by omega) (cur + dayMs)
      { db with orders := (db.orders ++
          [mkAutoOrder (nextOrderNumber db.orders) customerId adminId client cur
            (genTime cur)]) }]
    have hsnoc : nextOrderNumber (db.orders ++
        [mkAutoOrder (nextOrderNumber db.orders) customerId adminId client cur
          (genTime cur)]) = nextOrderNumber db.orders + 1 :=
      nextOrderNumber_snoc db.orders _ rfl
    rw [expectedOrders_succ]
    simp only [hsnoc]
    simp [List.append_assoc]

theorem range_filter_shift (g : Nat → Bool) (k : Nat) :
    ((List.range (k + 2)).filter g).length
      = (if g 0 then 1 else 0)
        + ((List.range (k + 1)).filter (fun i => g (i + 1))).length := by
  rw [show k + 2 = (k + 1) + 1 from rfl, List.range_succ_eq_map, List.filter_cons]
  have hmap : (List.map Nat.succ (List.range (k + 1))).filter g
      = ((List.range (k + 1)).filter (fun i => g (i + 1))).map Nat.succ := by
    rw [List.filter_map]
    congr 1
  by_cases h : g 0 = true
  · rw [if_pos h, if_pos h, hmap]
    simp only [List.length_cons, List.length_map]
    omega
  · rw [if_neg h, if_neg h, hmap]
    simp only [List.length_map]
    omega

theorem autoOrderLoop_count (genTime : Int → String) (client : ClientData)
    (customerId adminId : String) :
    ∀ (k fuel : Nat), k + 2 ≤ fuel → ∀ (cur : Int) (db : Db),
      (autoOrderLoop genTime (fun _ => false) client customerId adminId
        (cur + (k : Int) * dayMs) fuel cur db).2.length
      = ((List.range (k + 1)).filter (fun (i : Nat) =>
          deliveryDayFlag client.deliveryDays
            (getDayOfWeek (cur + (i : Int) * dayMs)))).length := by
  intro k
  induction k with
  | zero =>
    intro fuel hfuel cur db
    obtain ⟨f, rfl⟩ : ∃ f, fuel = f + 2 := ⟨fuel - 2, by omega⟩
    have hend : cur + ((0 : Nat) : Int) * dayMs = cur := by push_cast; ring
    rw [hend]
    rw [autoOrderLoop_step, if_pos (le_refl cur)]
    have hlast : ¬ cur + dayMs ≤ cur := by have := dayMs_pos; omega
    by_cases hflag : deliveryDayFlag client.deliveryDays (getDayOfWeek cur) = true
    · rw [if_pos hflag, if_neg (by simp)]
      rw [autoOrderLoop_step, if_neg hlast]
      simp [show List.range 1 = [0] from rfl, hend, hflag]
    · rw [if_neg hflag]
      rw [autoOrderLoop_step, if_neg hlast]
      simp [show List.range 1 = [0] from rfl, hend, hflag]
  | succ k ih =>
    intro fuel hfuel cur db
    obtain ⟨f, rfl⟩ : ∃ f, fuel = f + 2 := ⟨fuel - 2, by omega⟩
    have hcond : cur ≤ cur + ((k + 1 : Nat) : Int) * dayMs := by
      have h1 : (0 : Int) ≤ ((k + 1 : Nat) : Int) * dayMs :=
        mul_nonneg (by positivity) (le_of_lt dayMs_pos)
      omega
    have hsh : cur + ((k + 1 : Nat) : Int) * dayMs
        = (cur + dayMs) + (k : Int) * dayMs := by push_cast; ring
    have hshift := range_filter_shift (fun (i : Nat) =>
      deliveryDayFlag client.deliveryDays (getDayOfWeek (cur + (i : Int) * dayMs))) k
    have hptwise : ((List.range (k + 1)).filter (fun (i : Nat) =>
        deliveryDayFlag client.deliveryDays
          (getDayOfWeek (cur + ((i + 1 : Nat) : Int) * dayMs))))
        = ((List.range (k + 1)).filter (fun (i : Nat) =>
          deliveryDayFlag client.deliveryDays
            (getDayOfWeek ((cur + dayMs) + (i : Int) * dayMs)))) := by
      apply List.filter_congr
      intro i _
      have harg : cur + ((i + 1 : Nat) : Int) * dayMs
          = (cur + dayMs) + (i : Int) * dayMs := by push_cast; ring
      rw [harg]
    have hzero : cur + ((0 : Nat) : Int) * dayMs = cur := by push_cast; ring
    rw [show (k + 1) + 1 = k + 2 from rfl, hshift, hptwise]
    rw [autoOrderLoop_step, if_pos hcond]
    by_cases hflag : deliveryDayFlag client.deliveryDays (getDayOfWeek cur) = true
    · rw [if_pos hflag, if_neg (by simp)]
      simp only [List.length_cons]
      rw [hsh, ih (f + 1) (by omega) (cur + dayMs)]
      rw [hzero] at hshift ⊢
      rw [if_pos hflag]
      omega
    · rw [if_neg hflag]
      rw [hsh, ih (f + 1) (by omega) (cur + dayMs)]
      rw [hzero]
      rw [if_neg hflag]
      omega

theorem autoOrderLoop_noDays (genTime : Int → String) (fail : Int → Bool)
    (client : ClientData) (customerId adminId : String) (endDate : Int)
    (h : client.deliveryDays = noDaysSelected) :
    ∀ (fuel : Nat) (cur : Int) (db : Db),
      autoOrderLoop genTime fail client customerId adminId endDate fuel cur db
        = (db, []) := by
  intro fuel
  induction fuel with
  | zero => intro cur db; rfl
  | succ f ih =>
    intro cur db
    rw [autoOrderLoop_step]
    by_cases hc : cur ≤ endDate
    · rw [if_pos hc, h, deliveryDayFlag_noDaysSelected, if_neg (by simp)]
      exact ih (cur + dayMs) db
    · rw [if_neg hc]

theorem autoOrderLoop_frame (genTime : Int → String) (fail : Int → Bool)
    (client : ClientData) (customerId adminId : String) (endDate : Int) :
    ∀ (fuel : Nat) (cur : Int) (db : Db),
      (autoOrderLoop genTime fail client customerId adminId endDate fuel
        cur db).1.customers = db.customers
      ∧ (autoOrderLoop genTime fail client customerId adminId endDate fuel
        cur db).1.admins = db.admins := by
  intro fuel
  induction fuel with
  | zero => intro cur db; exact ⟨rfl, rfl⟩
  | succ f ih =>
    intro cur db
    rw [autoOrderLoop_step]
    split_ifs with h1 h2 h3
    · exact ih (cur + dayMs) db
    · exact ih (cur + dayMs) _
    · exact ih (cur + dayMs) db
    · exact ⟨rfl, rfl⟩

theorem createAutoOrdersForClient_frame (genTime : Int → String) (fail : Int → Bool)
    (db : Db) (client : ClientData) (startDate endDate : Int) :
    (createAutoOrdersForClient genTime fail db client startDate endDate).1.customers
      = db.customers
    ∧ (createAutoOrdersForClient genTime fail db client startDate endDate).1.admins
      = db.admins := by
  unfold createAutoOrdersForClient
  cases hfind : findCustomerById db client.id with
  | none => exact ⟨rfl, rfl⟩
  | some dbClient =>
    cases hadmin : findSuperAdmin db with
    | none => exact ⟨rfl, rfl⟩
    | some defaultAdmin => exact autoOrderLoop_frame genTime fail client _ _ _ _ _ db

theorem createFuel_eq (start : Int) (k : Nat) :
    ((start + (k : Int) * dayMs + dayMs - start).toNat / 86400000 + 1) = k + 2 := by
  have h1 : start + (k : Int) * dayMs + dayMs - start = (((k + 1) * 86400000 : Nat) : Int) := by
    push_cast [dayMs]
    ring
  rw [h1, Int.toNat_natCast, Nat.mul_div_cancel _ (by norm_num)]

theorem createAutoOrdersForClient_daily (genTime : Int → String) (db : Db)
    (client : ClientData) (dbClient : Customer) (admin : Admin)
    (hfind : findCustomerById db client.id = some dbClient)
    (hadmin : findSuperAdmin db = some admin)
    (hdays : client.deliveryDays = allDaysTrue) (start : Int) (k : Nat) :
    createAutoOrdersForClient genTime (fun _ => false) db client start
      (start + (k : Int) * dayMs)
    = ({ db with orders := (db.orders ++
          expectedOrders genTime client dbClient.id admin.id start
            (nextOrderNumber db.orders) k) },
       expectedOrders genTime client dbClient.id admin.id start
         (nextOrderNumber db.orders) k) := by
  unfold createAutoOrdersForClient
  rw [hfind, hadmin, createFuel_eq]
  exact autoOrderLoop_daily genTime client dbClient.id admin.id hdays k (k + 2)
    (le_refl _) start db

theorem createAutoOrdersForClient_count (genTime : Int → String) (db : Db)
    (client : ClientData) (dbClient : Customer) (admin : Admin)
    (hfind : findCustomerById db client.id = some dbClient)
    (hadmin : findSuperAdmin db = some admin) (start : Int) (k : Nat) :
    (createAutoOrdersForClient genTime (fun _ => false) db client start
      (start + (k : Int) * dayMs)).2.length
    = ((List.range (k + 1)).filter (fun (i : Nat) =>
        deliveryDayFlag client.deliveryDays
          (getDayOfWeek (start + (i : Int) * dayMs)))).length := by
  unfold createAutoOrdersForClient
  rw [hfind, hadmin, createFuel_eq]
  exact autoOrderLoop_count genTime client dbClient.id admin.id k (k + 2)
    (le_refl _) start db

theorem createAutoOrdersForClient_noDays (genTime : Int → String) (fail : Int → Bool)
    (db : Db) (client : ClientData) (startDate endDate : Int)
    (h : client.deliveryDays = noDaysSelected) :
    createAutoOrdersForClient genTime fail db client startDate endDate = (db, []) := by
  unfold createAutoOrdersForClient
  cases hfind : findCustomerById db client.id with
  | none => rfl
  | some dbClient =>
    cases hadmin : findSuperAdmin db with
    | none => rfl
    | some defaultAdmin =>
      exact autoOrderLoop_noDays genTime fail client dbClient.id defaultAdmin.id
        endDate h _ _ db

theorem schedulerProcess_customers (genTime : Int → String)
    (fail : String → Int → Bool) (now : Int) :
    ∀ (L : List Customer) (db : Db),
      (schedulerProcess genTime fail now L db).1.customers
        = db.customers.map (fun c =>
            if c.id ∈ L.map (fun x => x.id) then { c with updatedAt := some now }
            else c) := by
  intro L
  induction L with
  | nil =>
    intro db
    simp [schedulerProcess]
  | cons cl rest ih =>
    intro db
    simp only [schedulerProcess]
    rw [ih]
    unfold updateClientLastCheck
    rw [(createAutoOrdersForClient_frame genTime (fail cl.id) db (toClientData cl)
      now (now + 30 * dayMs)).1]
    rw [List.map_map]
    apply List.map_congr_left
    intro c _
    simp only [Function.comp, List.map_cons, List.mem_cons]
    by_cases hid : c.id = cl.id
    · rw [if_pos hid]
      simp only [hid]
      simp
    · rw [if_neg hid]
      by_cases hmem : c.id ∈ rest.map (fun x => x.id)
      · rw [if_pos hmem, if_pos (Or.inr hmem)]
      · rw [if_neg hmem, if_neg (by
          intro hc
          rcases hc with hc | hc
          · exact hid hc
          · exact hmem hc)]

theorem runScheduler_single_daily (genTime : Int → String) (db : Db) (c : Customer)
    (a : Admin) (now : Int)
    (helig : eligibleClients db now = [c])
    (hfind : findCustomerById db c.id = some c)
    (hadmin : findSuperAdmin db = some a)
    (hdaily : c.orderPattern = some "daily") :
    (runAutoOrderScheduler genTime (fun _ _ => false) db now).2 = 31
    ∧ (runAutoOrderScheduler genTime (fun _ _ => false) db now).1.orders
      = db.orders ++ expectedOrders genTime (toClientData c) c.id a.id now
          (nextOrderNumber db.orders) 30 := by
  unfold runAutoOrderScheduler
  rw [helig]
  simp only [schedulerProcess]
  have hdd : (toClientData c).deliveryDays = allDaysTrue := by
    simp [toClientData, resolveDeliveryDays, hdaily]
  have h30 : now + 30 * dayMs = now + ((30 : Nat) : Int) * dayMs := by norm_num
  rw [h30, createAutoOrdersForClient_daily genTime db (toClientData c) c a hfind hadmin
    hdd now 30]
  constructor
  · simp [schedulerProcess, expectedOrders]
  · simp [schedulerProcess, updateClientLastCheck]

theorem runScheduler_single_count (genTime : Int → String) (db : Db) (c : Customer)
    (a : Admin) (now : Int)
    (helig : eligibleClients db now = [c])
    (hfind : findCustomerById db c.id = some c)
    (hadmin : findSuperAdmin db = some a) :
    (runAutoOrderScheduler genTime (fun _ _ => false) db now).2
      = ((List.range 31).filter (fun (i : Nat) =>
          deliveryDayFlag (resolveDeliveryDays c.orderPattern)
            (getDayOfWeek (now + (i : Int) * dayMs)))).length := by
  unfold runAutoOrderScheduler
  rw [helig]
  simp only [schedulerProcess]
  have h30 : now + 30 * dayMs = now + ((30 : Nat) : Int) * dayMs := by norm_num
  rw [h30]
  have hcnt := createAutoOrdersForClient_count genTime db (toClientData c) c a hfind
    hadmin now 30
  rw [hcnt]
  simp [schedulerProcess, toClientData]

theorem cash_delivery_dispatch_once (cfg : AnalyticsConfig) (gaNetOk metaNetOk : Bool)
    (userId : String) (o : Order) (rows0 : List (String × String))
    (hga : cfg.ga4Configured = true) (hmeta : cfg.metaConfigured = true)
    (hst : o.orderStatus = OrderStatus.PENDING)
    (hpm : o.paymentMethod = PaymentMethod.CASH)
    (hps : o.paymentStatus = PaymentStatus.UNPAID)
    (hledg : ¬ (o.id, "order_paid") ∈ rows0)
    (n1 n2 n3 n4 n5 : Int) :
    runActions cfg true true gaNetOk metaNetOk Role.COURIER userId
      [(OrderAction.start_delivery, n1), (OrderAction.pause_delivery, n2),
       (OrderAction.resume_delivery, n3), (OrderAction.complete_delivery, n4),
       (OrderAction.complete_delivery, n5)]
      { order := o, ledger := { rows := rows0 },
        counters := { ga4Attempts := 0, metaAttempts := 0, networkFailures := 0 } }
    = Except.ok
      { order := { o with
          orderStatus := OrderStatus.DELIVERED
          courierId := some userId
          deliveredAt := some n5 }
        ledger := { rows := rows0 ++ [(o.id, "order_paid")] }
        counters := { ga4Attempts := 1
                      metaAttempts := 1
                      networkFailures := ((if ¬ gaNetOk then 1 else 0) +
                        (if ¬ metaNetOk then 1 else 0)) } } := by
  simp [runActions, patchOrderStatus, applyOrderAction, runDispatchFlow, hasDispatched,
    markDispatched, ledgerFindUnique, ledgerCreate, hst, hpm, hps, hga, hmeta, hledg]

/-! ## Concrete fixtures used by counterexamples and witnesses -/

/-- Active customer with pattern `daily`, created at the epoch and never
checked by the scheduler. -/
def fixtureDailyCustomer : Customer :=
  { id := "c1", name := "Client One", phone := "+998900000001", address := "Tashkent",
    preferences := none, orderPattern := some "daily", isActive := true,
    createdAt := 0, updatedAt := none }

/-- Same customer with the pattern `every_other_day_even`. -/
def fixtureEvenCustomer : Customer :=
  { fixtureDailyCustomer with id := "c2", orderPattern := some "every_other_day_even" }

def fixtureAdmin : Admin :=
  { id := "a1", role := "SUPER_ADMIN" }

/-- Database holding only the daily customer, a super admin and no orders. -/
def fixtureDb : Db :=
  { customers := [fixtureDailyCustomer], admins := [fixtureAdmin], orders := [] }

/-- Database holding only the every-other-day customer. -/
def fixtureEvenDb : Db :=
  { customers := [fixtureEvenCustomer], admins := [fixtureAdmin], orders := [] }

/-- Scheduler clock 31 days after the fixture customer's creation. -/
def fixtureRunTime : Int := 31 * dayMs

/-- Pending cash order used by the lifecycle claims. -/
def fixturePendingOrder : Order :=
  { id := "o1", orderNumber := 1, customerId := "c1", adminId := "a1", courierId := none,
    deliveryAddress := "Tashkent", deliveryDate := none, deliveryTime := "12:00",
    quantity := 1, calories := 2000, specialFeatures := "",
    paymentStatus := PaymentStatus.UNPAID, paymentMethod := PaymentMethod.CASH,
    isPrepaid := false, orderStatus := OrderStatus.PENDING, deliveredAt := none }

/-! ## Claims -/

/-- Claim C1, counterexample: the scheduler horizon is `[today, today + 30 days]`
inclusive, 31 dates, so one run for the fixture daily customer (active,
created 31 days before the run, never checked) creates 31 orders, not the
30 the claim states. -/
theorem claim_C1_counterexample :
    fixtureDailyCustomer.isActive = true
    ∧ fixtureDailyCustomer.orderPattern = some "daily"
    ∧ fixtureDailyCustomer.updatedAt = none
    ∧ 31 * dayMs ≤ fixtureRunTime - fixtureDailyCustomer.createdAt
    ∧ (runAutoOrderScheduler (fun _ => "12:00") (fun _ _ => false) fixtureDb
        fixtureRunTime).2 = 31
    ∧ ¬ (runAutoOrderScheduler (fun _ => "12:00") (fun _ _ => false) fixtureDb
        fixtureRunTime).2 = 30 := by
  decide

/-- Claim C1, amended: for a database whose only customer is active with pattern
`daily`, created at least 31 days ago and never checked, and holding a
`SUPER_ADMIN`, one scheduler run creates exactly one order per date of the
31-date horizon `today .. today + 30 days` — exactly 31 orders — each with
status `PENDING` and payment defaults `UNPAID`/`CASH`/not prepaid, with
consecutive order numbers continuing from the prior maximum (recomputed per
insertion) and consecutive delivery dates. -/
theorem claim_C1 (genTime : Int → String) (db : Db) (c : Customer) (a : Admin)
    (now : Int)
    (hactive : c.isActive = true)
    (hdaily : c.orderPattern = some "daily")
    (hnever : c.updatedAt = none)
    (hage : 31 * dayMs ≤ now - c.createdAt)
    (honly : db.customers = [c])
    (hadmin : findSuperAdmin db = some a) :
    (runAutoOrderScheduler genTime (fun _ _ => false) db now).2 = 31
    ∧ (runAutoOrderScheduler genTime (fun _ _ => false) db now).1.orders
      = db.orders ++ (List.range 31).map (fun (i : Nat) =>
          mkAutoOrder (nextOrderNumber db.orders + (i : Int)) c.id a.id
            (toClientData c) (now + (i : Int) * dayMs)
            (genTime (now + (i : Int) * dayMs)))
    ∧ ∀ o ∈ (List.range 31).map (fun (i : Nat) =>
          mkAutoOrder (nextOrderNumber db.orders + (i : Int)) c.id a.id
            (toClientData c) (now + (i : Int) * dayMs)
            (genTime (now + (i : Int) * dayMs))),
        o.orderStatus = OrderStatus.PENDING
        ∧ o.paymentStatus = PaymentStatus.UNPAID
        ∧ o.paymentMethod = PaymentMethod.CASH
        ∧ o.isPrepaid = false := by
  have hel : clientIsEligible now c = true := by
    unfold clientIsEligible
    have h30 : has30DaysPassed now c.createdAt = true := by
      rw [has30DaysPassed_iff]
      have := dayMs_pos
      omega
    rw [h30]
    simp
  have helig : eligibleClients db now = [c] := by
    unfold eligibleClients
    rw [honly]
    simp [hactive, hel]
  have hfind : findCustomerById db c.id = some c := by
    unfold findCustomerById
    rw [honly]
    simp
  have hmain := runScheduler_single_daily genTime db c a now helig hfind hadmin hdaily
  refine ⟨hmain.1, ?_, ?_⟩
  · rw [hmain.2]
    rfl
  · intro o ho
    obtain ⟨i, _, rfl⟩ := List.mem_map.mp ho
    exact ⟨rfl, rfl, rfl, rfl⟩

/-- Claim C1, witness: the amended claim applied to the concrete fixture run. -/
theorem claim_C1_witness :
    (runAutoOrderScheduler (fun _ => "12:00") (fun _ _ => false) fixtureDb
      fixtureRunTime).2 = 31 :=
  (claim_C1 (fun _ => "12:00") fixtureDb fixtureDailyCustomer fixtureAdmin
    fixtureRunTime (by decide) (by decide) (by decide) (by decide) (by decide)
    (by decide)).1

/-- Claim C2, counterexample: the pattern `every_other_day_even` does not resolve
to a fixed non-empty day set — the scheduler resolves every pattern other
than `daily` to no days selected, so the fixture customer with that
pattern receives zero orders over the 30-day horizon. -/
theorem claim_C2_counterexample :
    resolveDeliveryDays (some "every_other_day_even") = noDaysSelected
    ∧ (∀ s ∈ dayNames,
        deliveryDayFlag (resolveDeliveryDays (some "every_other_day_even")) s = false)
    ∧ (runAutoOrderScheduler (fun _ => "12:00") (fun _ _ => false) fixtureEvenDb
        fixtureRunTime).2 = 0 := by
  decide

/-- Claim C2, amended: the scheduler resolves `daily` to all seven flags true and
every other pattern value — `every_other_day_even` and
`every_other_day_odd` included — as well as an unset pattern, to no days
selected; consequently, for the database whose only customer is the
eligible one, the order count of a run equals the number of qualifying
days of the horizon (the dates whose weekday flag is true), which is zero
for every pattern other than `daily`. -/
theorem claim_C2 (genTime : Int → String) (db : Db) (c : Customer) (a : Admin)
    (now : Int)
    (helig : eligibleClients db now = [c])
    (hfind : findCustomerById db c.id = some c)
    (hadmin : findSuperAdmin db = some a) :
    resolveDeliveryDays (some "daily") = allDaysTrue
    ∧ (∀ p : Option String, p ≠ some "daily" → resolveDeliveryDays p = noDaysSelected)
    ∧ (runAutoOrderScheduler genTime (fun _ _ => false) db now).2
      = ((List.range 31).filter (fun (i : Nat) =>
          deliveryDayFlag (resolveDeliveryDays c.orderPattern)
            (getDayOfWeek (now + (i : Int) * dayMs)))).length
    ∧ (c.orderPattern ≠ some "daily" →
        (runAutoOrderScheduler genTime (fun _ _ => false) db now).2 = 0) := by
  have hcount := runScheduler_single_count genTime db c a now helig hfind hadmin
  refine ⟨rfl, ?_, hcount, ?_⟩
  · intro p hp
    unfold resolveDeliveryDays
    rw [if_neg hp]
  · intro hpat
    rw [hcount]
    have hres : resolveDeliveryDays c.orderPattern = noDaysSelected := by
      unfold resolveDeliveryDays
      rw [if_neg hpat]
    rw [hres]
    simp [deliveryDayFlag_noDaysSelected]

/-- Claim C2, witness: the amended claim applied to the fixture customer with
pattern `every_other_day_even`, whose run creates zero orders. -/
theorem claim_C2_witness :
    (runAutoOrderScheduler (fun _ => "12:00") (fun _ _ => false) fixtureEvenDb
      fixtureRunTime).2 = 0 :=
  (claim_C2 (fun _ => "12:00") fixtureEvenDb fixtureEvenCustomer fixtureAdmin
    fixtureRunTime (by decide) (by decide) (by decide)).2.2.2 (by decide)

/-- Claim C3, counterexample: `complete_delivery` by a courier on a `PENDING`
order — a state that is neither `IN_DELIVERY` nor `PAUSED` — succeeds and
sets the order to `DELIVERED`, instead of failing with `InvalidState` as
the claim states. -/
theorem claim_C3_counterexample :
    fixturePendingOrder.orderStatus = OrderStatus.PENDING
    ∧ fixturePendingOrder.orderStatus ≠ OrderStatus.IN_DELIVERY
    ∧ fixturePendingOrder.orderStatus ≠ OrderStatus.PAUSED
    ∧ applyOrderAction Role.COURIER "u1" 5 fixturePendingOrder
        OrderAction.complete_delivery
      = Except.ok { fixturePendingOrder with
          orderStatus := OrderStatus.DELIVERED
          deliveredAt := some 5 } :=
  ⟨rfl, by decide, by decide, rfl⟩

/-- Claim C3, amended: `start_delivery`, `pause_delivery` and `resume_delivery`
attempted by a courier from a state other than their precondition
(`PENDING`, `IN_DELIVERY`, `PAUSED` respectively) fail with `InvalidState`
and, the handler returning before the update, leave the world unchanged;
`complete_delivery`, however, checks only the caller's role and succeeds
from any state, setting the order to `DELIVERED` and stamping the delivery
time. -/
theorem claim_C3 (userId : String) (now : Int) (order : Order) :
    (order.orderStatus ≠ OrderStatus.PENDING →
      applyOrderAction Role.COURIER userId now order OrderAction.start_delivery
        = Except.error PatchError.invalidState)
    ∧ (order.orderStatus ≠ OrderStatus.IN_DELIVERY →
      applyOrderAction Role.COURIER userId now order OrderAction.pause_delivery
        = Except.error PatchError.invalidState)
    ∧ (order.orderStatus ≠ OrderStatus.PAUSED →
      applyOrderAction Role.COURIER userId now order OrderAction.resume_delivery
        = Except.error PatchError.invalidState)
    ∧ (applyOrderAction Role.COURIER userId now order OrderAction.complete_delivery
        = Except.ok { order with
            orderStatus := OrderStatus.DELIVERED
            deliveredAt := some now })
    ∧ (∀ (cfg : AnalyticsConfig) (readOk writeOk gaNetOk metaNetOk : Bool)
        (w : PatchWorld) (action : OrderAction) (e : PatchError),
        applyOrderAction Role.COURIER userId now w.order action = Except.error e →
        patchOrderStatus cfg readOk writeOk gaNetOk metaNetOk Role.COURIER userId now
          action w = Except.error e) := by
  refine ⟨?_, ?_, ?_, ?_, ?_⟩
  · intro h
    simp [applyOrderAction, h]
  · intro h
    simp [applyOrderAction, h]
  · intro h
    simp [applyOrderAction, h]
  · simp [applyOrderAction]
  · intro cfg readOk writeOk gaNetOk metaNetOk w action e herr
    unfold patchOrderStatus
    rw [herr]

/-- Claim C3, witness: the amended claim at a concrete order: `start_delivery`
on a `DELIVERED` order is rejected with `InvalidState` while
`complete_delivery` on a `PENDING` order succeeds. -/
theorem claim_C3_witness :
    applyOrderAction Role.COURIER "u1" 7
      { fixturePendingOrder with orderStatus := OrderStatus.DELIVERED }
      OrderAction.start_delivery = Except.error PatchError.invalidState
    ∧ applyOrderAction Role.COURIER "u1" 7 fixturePendingOrder
      OrderAction.complete_delivery
      = Except.ok { fixturePendingOrder with
          orderStatus := OrderStatus.DELIVERED
          deliveredAt := some 7 } :=
  ⟨(claim_C3 "u1" 7 { fixturePendingOrder with
      orderStatus := OrderStatus.DELIVERED }).1 (by decide),
   (claim_C3 "u1" 7 fixturePendingOrder).2.2.2.1⟩

/-- Claim C9: `start_delivery` attempted by a courier on a `DELIVERED` order
fails with `InvalidState`; a successful start (from `PENDING`) assigns the
calling courier's identity; and `complete_delivery` by any non-courier
role fails with `Forbidden`. -/
theorem claim_C9 (userId : String) (now : Int) (order : Order) (role : Role) :
    (order.orderStatus = OrderStatus.DELIVERED →
      applyOrderAction Role.COURIER userId now order OrderAction.start_delivery
        = Except.error PatchError.invalidState)
    ∧ (order.orderStatus = OrderStatus.PENDING →
      applyOrderAction Role.COURIER userId now order OrderAction.start_delivery
        = Except.ok { order with
            orderStatus := OrderStatus.IN_DELIVERY
            courierId := some userId })
    ∧ (role ≠ Role.COURIER →
      applyOrderAction role userId now order OrderAction.complete_delivery
        = Except.error PatchError.forbidden) := by
  refine ⟨?_, ?_, ?_⟩
  · intro h
    simp [applyOrderAction, h]
  · intro h
    simp [applyOrderAction, h]
  · intro h
    simp [applyOrderAction, h]

/-- Claim C9, witness: the claim at concrete inputs — a delivered order rejects
`start_delivery` with `InvalidState`, and a `MIDDLE_ADMIN` caller is
rejected with `Forbidden` on `complete_delivery`. -/
theorem claim_C9_witness :
    applyOrderAction Role.COURIER "u2" 9
      { fixturePendingOrder with orderStatus := OrderStatus.DELIVERED }
      OrderAction.start_delivery = Except.error PatchError.invalidState
    ∧ applyOrderAction Role.MIDDLE_ADMIN "u2" 9 fixturePendingOrder
      OrderAction.complete_delivery = Except.error PatchError.forbidden :=
  ⟨(claim_C9 "u2" 9 { fixturePendingOrder with
      orderStatus := OrderStatus.DELIVERED } Role.COURIER).1 (by decide),
   (claim_C9 "u2" 9 fixturePendingOrder Role.MIDDLE_ADMIN).2.2 (by decide)⟩

/-- Claim C5: an order that transitions `PENDING → IN_DELIVERY → PAUSED →
IN_DELIVERY → DELIVERED` with `paymentMethod = CASH` triggers exactly one
`order_paid` dispatch: the ledger is consulted first, both configured
endpoints are attempted once each (endpoint network outcomes are
arbitrary and do not prevent the marking, mirroring `Promise.allSettled`),
then `markDispatched` records the event; the replayed fifth action
(`complete_delivery` again) finds the ledger marked and adds zero
external calls — the counters after four actions already equal the
counters after five. -/
theorem claim_C5 (cfg : AnalyticsConfig) (gaNetOk metaNetOk : Bool)
    (userId : String) (o : Order) (rows0 : List (String × String))
    (hga : cfg.ga4Configured = true) (hmeta : cfg.metaConfigured = true)
    (hst : o.orderStatus = OrderStatus.PENDING)
    (hpm : o.paymentMethod = PaymentMethod.CASH)
    (hps : o.paymentStatus = PaymentStatus.UNPAID)
    (hledg : ¬ (o.id, "order_paid") ∈ rows0)
    (n1 n2 n3 n4 n5 : Int) :
    runActions cfg true true gaNetOk metaNetOk Role.COURIER userId
      [(OrderAction.start_delivery, n1), (OrderAction.pause_delivery, n2),
       (OrderAction.resume_delivery, n3), (OrderAction.complete_delivery, n4),
       (OrderAction.complete_delivery, n5)]
      { order := o, ledger := { rows := rows0 },
        counters := { ga4Attempts := 0, metaAttempts := 0, networkFailures := 0 } }
    = Except.ok
      { order := { o with
          orderStatus := OrderStatus.DELIVERED
          courierId := some userId
          deliveredAt := some n5 }
        ledger := { rows := rows0 ++ [(o.id, "order_paid")] }
        counters := { ga4Attempts := 1
                      metaAttempts := 1
                      networkFailures := ((if ¬ gaNetOk then 1 else 0) +
                        (if ¬ metaNetOk then 1 else 0)) } }
    ∧ runActions cfg true true gaNetOk metaNetOk Role.COURIER userId
      [(OrderAction.start_delivery, n1), (OrderAction.pause_delivery, n2),
       (OrderAction.resume_delivery, n3), (OrderAction.complete_delivery, n4)]
      { order := o, ledger := { rows := rows0 },
        counters := { ga4Attempts := 0, metaAttempts := 0, networkFailures := 0 } }
    = Except.ok
      { order := { o with
          orderStatus := OrderStatus.DELIVERED
          courierId := some userId
          deliveredAt := some n4 }
        ledger := { rows := rows0 ++ [(o.id, "order_paid")] }
        counters := { ga4Attempts := 1
                      metaAttempts := 1
                      networkFailures := ((if ¬ gaNetOk then 1 else 0) +
                        (if ¬ metaNetOk then 1 else 0)) } } := by
  constructor
  · exact cash_delivery_dispatch_once cfg gaNetOk metaNetOk userId o rows0 hga hmeta
      hst hpm hps hledg n1 n2 n3 n4 n5
  · simp [runActions, patchOrderStatus, applyOrderAction, runDispatchFlow,
      hasDispatched, markDispatched, ledgerFindUnique, ledgerCreate, hst, hpm, hps,
      hga, hmeta, hledg]

/-- Claim C5, witness: the claim at the concrete fixture order with both
endpoints configured and reliable networks. -/
theorem claim_C5_witness :
    runActions { ga4Configured := true, metaConfigured := true } true true true true
      Role.COURIER "u3"
      [(OrderAction.start_delivery, 1), (OrderAction.pause_delivery, 2),
       (OrderAction.resume_delivery, 3), (OrderAction.complete_delivery, 4),
       (OrderAction.complete_delivery, 5)]
      { order := fixturePendingOrder, ledger := { rows := [] },
        counters := { ga4Attempts := 0, metaAttempts := 0, networkFailures := 0 } }
    = Except.ok
      { order := { fixturePendingOrder with
          orderStatus := OrderStatus.DELIVERED
          courierId := some "u3"
          deliveredAt := some 5 }
        ledger := { rows := [("o1", "order_paid")] }
        counters := { ga4Attempts := 1, metaAttempts := 1, networkFailures := 0 } } := by
  have h := (claim_C5 { ga4Configured := true, metaConfigured := true } true true "u3"
    fixturePendingOrder [] (by decide) (by decide) (by decide) (by decide) (by decide)
    (by decide) 1 2 3 4 5).1
  simpa using h

/-- Claim C4, counterexample: with `maxRequests = 2` and `windowMs = 100`, the
nondecreasing trace `0, 99, 101, 102` has three allowed calls inside the
single trailing window `(2, 102]` — the bookkeeping reset at the third
call discards the still-in-window timestamp 99, so the claimed bound
`maxRequests` fails. -/
theorem claim_C4_counterexample :
    List.Pairwise (· ≤ ·) [(0 : Int), 99, 101, 102]
    ∧ allowedInWindow { maxRequests := 2, windowMs := 100 } [0, 99, 101, 102] 102 = 3
    ∧ ¬ allowedInWindow { maxRequests := 2, windowMs := 100 } [0, 99, 101, 102] 102
        ≤ ({ maxRequests := 2, windowMs := 100 } : RateLimitConfig).maxRequests := by
  refine ⟨by decide, by decide, by decide⟩

/-- Claim C4, amended: for every sequence of `checkRateLimit` calls for one
client at nondecreasing times and every trailing window of length
`windowMs`, the number of allowed calls whose times fall in the window
never exceeds `2 * maxRequests` (the original bound `maxRequests` can be
exceeded — by up to a factor of two — only when the record's bookkeeping
reset falls inside the window). -/
theorem claim_C4 (config : RateLimitConfig) (hW : 0 ≤ config.windowMs)
    (calls : List Int) (hsorted : List.Pairwise (· ≤ ·) calls) (e : Int) :
    allowedInWindow config calls e ≤ 2 * config.maxRequests :=
  allowedInWindow_le_two_mul config hW calls hsorted e

/-- Claim C4, witness: the amended bound evaluated on the counterexample trace:
three allowed calls in the window, within the bound of four. -/
theorem claim_C4_witness :
    allowedInWindow { maxRequests := 2, windowMs := 100 } [0, 99, 101, 102] 102
      ≤ 2 * ({ maxRequests := 2, windowMs := 100 } : RateLimitConfig).maxRequests :=
  claim_C4 { maxRequests := 2, windowMs := 100 } (by decide) [0, 99, 101, 102]
    (by decide) 102

/-- Claim C6: the ledger operations are best-effort and never abort the caller —
`hasDispatched` reports `false` whenever the underlying read throws, and
`markDispatched` always returns normally, inserting the row exactly when
the store is up and the row is absent, and otherwise (store failure or
uniqueness violation) leaving the ledger unchanged as a no-op success. -/
theorem claim_C6 :
    (∀ (st : LedgerState) (orderId eventName : String),
      hasDispatched false st orderId eventName = false)
    ∧ (∀ (ok : Bool) (st : LedgerState) (orderId eventName : String),
      markDispatched ok st orderId eventName
        = if ok = true ∧ ¬ (orderId, eventName) ∈ st.rows
          then { rows := st.rows ++ [(orderId, eventName)] }
          else st) := by
  constructor
  · intro st orderId eventName
    rfl
  · intro ok st orderId eventName
    unfold markDispatched ledgerCreate
    cases ok with
    | false => simp
    | true =>
      by_cases hmem : (orderId, eventName) ∈ st.rows
      · simp [hmem]
      · simp [hmem]

/-- Claim C7, counterexample: on the nondecreasing trace `0, 99, 101` with
`maxRequests = 2`, `windowMs = 100`, the third call under the claimed
prune-then-check algorithm would find the surviving timestamp 99, admit,
and report `remaining = 0`; `checkRateLimit` instead resets the record
(its bookkeeping `resetTime` 100 has passed), discards 99, and reports
`remaining = 1` — so the claimed per-call algorithm does not match the
code. -/
theorem claim_C7_counterexample :
    ((processCalls { maxRequests := 2, windowMs := 100 } none [0, 99, 101]).1.map
      (fun p => p.2.remaining)) = [1, 0, 1]
    ∧ ((specProcessCalls { maxRequests := 2, windowMs := 100 } [] [0, 99, 101]).1.map
      (fun r => r.remaining)) = [1, 0, 0]
    ∧ ¬ ((processCalls { maxRequests := 2, windowMs := 100 } none [0, 99, 101]).1.map
      (fun p => p.2.remaining))
      = ((specProcessCalls { maxRequests := 2, windowMs := 100 } [] [0, 99, 101]).1.map
      (fun r => r.remaining)) := by
  refine ⟨by decide, by decide, by decide⟩

/-- Claim C7, amended: each `checkRateLimit` call behaves as the claimed
algorithm once the record is first put through the lazy-create/reset step
(`effectiveRecord`: a missing record is created empty and a record whose
bookkeeping `resetTime` has passed is discarded): expired timestamps are
dropped, a call with surviving count at least `maxRequests` is denied with
`resetTime` = oldest surviving + window, otherwise `now` is recorded and
`remaining = maxRequests - newCount`; in particular, with
`maxRequests = 5`, five calls inside one window all succeed with
remaining 4,3,2,1,0 and the sixth is denied with `resetTime` equal to the
first call's timestamp plus the window length. -/
theorem claim_C7 :
    (∀ (stored : Option RateLimitRecord) (now : Int) (config : RateLimitConfig),
      (checkRateLimit stored now config).1.allowed
        = (specAdmit (effectiveRecord stored now config).requestTimestamps now
            config).allowed
      ∧ (checkRateLimit stored now config).1.remaining
        = (specAdmit (effectiveRecord stored now config).requestTimestamps now
            config).remaining
      ∧ ((checkRateLimit stored now config).1.allowed = false →
          some (checkRateLimit stored now config).1.resetTime
            = (specAdmit (effectiveRecord stored now config).requestTimestamps now
                config).resetOnDeny)
      ∧ (checkRateLimit stored now config).2.requestTimestamps
        = (specAdmit (effectiveRecord stored now config).requestTimestamps now
            config).newTimestamps)
    ∧ (∀ (W t1 t2 t3 t4 t5 t6 : Int), t1 ≤ t2 → t2 ≤ t3 → t3 ≤ t4 → t4 ≤ t5 →
        t5 ≤ t6 → t6 < t1 + W →
        (processCalls { maxRequests := 5, windowMs := W } none
          [t1, t2, t3, t4, t5, t6]).1
        = [(t1, { allowed := true, remaining := 4, resetTime := t1 + W }),
           (t2, { allowed := true, remaining := 3, resetTime := t1 + W }),
           (t3, { allowed := true, remaining := 2, resetTime := t1 + W }),
           (t4, { allowed := true, remaining := 1, resetTime := t1 + W }),
           (t5, { allowed := true, remaining := 0, resetTime := t1 + W }),
           (t6, { allowed := false, remaining := 0, resetTime := t1 + W })]) :=
  ⟨fun stored now config => checkRateLimit_refines_specAdmit stored now config,
   fun W t1 t2 t3 t4 t5 t6 h12 h23 h34 h45 h56 h6 =>
    five_then_deny W t1 t2 t3 t4 t5 t6 h12 h23 h34 h45 h56 h6⟩

/-- Claim C7, witness: the five-successes-then-denial scenario at concrete call
times 0..5 with a 15-minute window, via the amended claim. -/
theorem claim_C7_witness :
    (processCalls { maxRequests := 5, windowMs := 900000 } none
      [0, 1, 2, 3, 4, 5]).1
    = [((0 : Int), { allowed := true, remaining := 4, resetTime := 900000 }),
       (1, { allowed := true, remaining := 3, resetTime := 900000 }),
       (2, { allowed := true, remaining := 2, resetTime := 900000 }),
       (3, { allowed := true, remaining := 1, resetTime := 900000 }),
       (4, { allowed := true, remaining := 0, resetTime := 900000 }),
       (5, { allowed := false, remaining := 0, resetTime := 900000 })] := by
  have h := claim_C7.2 900000 0 1 2 3 4 5 (by decide) (by decide) (by decide)
    (by decide) (by decide) (by decide)
  simpa using h

/-- Claim C10: a denied `checkRateLimit` call does not record the denied
request's timestamp — after a denial the stored list is exactly the
in-window survivors of the pre-call list — and an immediately repeated
call at the same clock value returns the identical decision, `remaining`
and `resetTime`, so repeated denied requests never extend the reported
denial period. -/
theorem claim_C10 (config : RateLimitConfig) (hM : 1 ≤ config.maxRequests)
    (stored : Option RateLimitRecord) (now : Int)
    (hdenied : (checkRateLimit stored now config).1.allowed = false) :
    (checkRateLimit stored now config).2.requestTimestamps
      = (match stored with
         | none => ([] : List Int)
         | some r => r.requestTimestamps).filter
          (fun x => now - config.windowMs < x)
    ∧ checkRateLimit (some (checkRateLimit stored now config).2) now config
      = checkRateLimit stored now config :=
  denied_leaves_only_pruned config hM stored now hdenied

/-- Claim C10, witness: a concrete denied call — full record, window intact —
leaves the stored timestamp list unchanged and is idempotent. -/
theorem claim_C10_witness :
    (checkRateLimit
      (some { count := 1, resetTime := 100, requestTimestamps := [0] }) 50
      { maxRequests := 1, windowMs := 100 }).2.requestTimestamps = [0]
    ∧ checkRateLimit (some (checkRateLimit
        (some { count := 1, resetTime := 100, requestTimestamps := [0] }) 50
        { maxRequests := 1, windowMs := 100 }).2) 50
        { maxRequests := 1, windowMs := 100 }
      = checkRateLimit
        (some { count := 1, resetTime := 100, requestTimestamps := [0] }) 50
        { maxRequests := 1, windowMs := 100 } := by
  have h := claim_C10 { maxRequests := 1, windowMs := 100 } (by decide)
    (some { count := 1, resetTime := 100, requestTimestamps := [0] }) 50 (by decide)
  exact ⟨h.1.trans (by decide), h.2⟩

/-- Claim C8: a scheduler run; first, an active customer is eligible exactly
when 30 days have elapsed since creation or since the last check
(`updatedAt`, defaulting to creation) — either alone suffices; second,
for every failure oracle (order creation may throw for any customer and
date, so one customer's failures never abort the others) the run stamps
`updatedAt := now` on precisely the customers whose id belongs to an
eligible customer, re-arming the 30-day window; third, every eligible
customer's stamped row is in the post-run table whatever the failures. -/
theorem claim_C8 (db : Db) (now : Int) :
    (∀ c : Customer, c ∈ eligibleClients db now ↔
      (c ∈ db.customers ∧ c.isActive = true ∧
        (30 * dayMs ≤ now - c.createdAt
          ∨ 30 * dayMs ≤ now - (c.updatedAt.getD c.createdAt))))
    ∧ (∀ (genTime : Int → String) (fail : String → Int → Bool),
        (runAutoOrderScheduler genTime fail db now).1.customers
          = db.customers.map (fun c =>
              if c.id ∈ (eligibleClients db now).map (fun x => x.id)
              then { c with updatedAt := some now } else c))
    ∧ (∀ (genTime : Int → String) (fail : String → Int → Bool) (c : Customer),
        c ∈ eligibleClients db now →
        { c with updatedAt := some now }
          ∈ (runAutoOrderScheduler genTime fail db now).1.customers) := by
  have hmem : ∀ c : Customer, c ∈ eligibleClients db now ↔
      (c ∈ db.customers ∧ c.isActive = true ∧
        (30 * dayMs ≤ now - c.createdAt
          ∨ 30 * dayMs ≤ now - (c.updatedAt.getD c.createdAt))) := by
    intro c
    unfold eligibleClients
    rw [List.mem_filter, List.mem_filter]
    unfold clientIsEligible
    rw [Bool.or_eq_true, has30DaysPassed_iff, has30DaysPassed_iff]
    tauto
  have hcust : ∀ (genTime : Int → String) (fail : String → Int → Bool),
      (runAutoOrderScheduler genTime fail db now).1.customers
        = db.customers.map (fun c =>
            if c.id ∈ (eligibleClients db now).map (fun x => x.id)
            then { c with updatedAt := some now } else c) := by
    intro genTime fail
    unfold runAutoOrderScheduler
    exact schedulerProcess_customers genTime fail now (eligibleClients db now) db
  refine ⟨hmem, hcust, ?_⟩
  intro genTime fail c hc
  rw [hcust genTime fail]
  have hcmem : c ∈ db.customers := ((hmem c).mp hc).1
  have hid : c.id ∈ (eligibleClients db now).map (fun x => x.id) :=
    List.mem_map_of_mem (fun x => x.id) hc
  have hmap := List.mem_map_of_mem (fun c : Customer =>
    if c.id ∈ (eligibleClients db now).map (fun x => x.id)
    then { c with updatedAt := some now } else c) hcmem
  simp only [hid, if_true] at hmap
  exact hmap

/-- Claim C8, witness: at the fixture database 31 days after creation, the only
customer is eligible, and after a run with an always-failing creation
oracle its last-check timestamp is still stamped with the run time. -/
theorem claim_C8_witness :
    fixtureDailyCustomer ∈ eligibleClients fixtureDb fixtureRunTime
    ∧ { fixtureDailyCustomer with updatedAt := some fixtureRunTime }
      ∈ (runAutoOrderScheduler (fun _ => "12:00") (fun _ _ => true) fixtureDb
          fixtureRunTime).1.customers :=
  have helig : fixtureDailyCustomer ∈ eligibleClients fixtureDb fixtureRunTime :=
    ((claim_C8 fixtureDb fixtureRunTime).1 fixtureDailyCustomer).mpr
      ⟨by decide, by decide, Or.inl (by decide)⟩
  ⟨helig,
   (claim_C8 fixtureDb fixtureRunTime).2.2 (fun _ => "12:00") (fun _ _ => true)
     fixtureDailyCustomer helig⟩

end DeliveryEngine
